import Mathlib

set_option linter.unusedVariables false

namespace CodexMem

/- Shallow embedding of CODEXMEM-MCP (src/db/store.ts and src/worker/server.ts).
   SQLite tables become Lean lists of rows, autoincrement ids become explicit
   counters, and each store method becomes a pure state-passing function.
   Epoch timestamps are Int (milliseconds), ids are Nat. -/

/-- `const MAX_RETRY = 3` in src/db/store.ts. -/
def MAX_RETRY : Nat := 3

/-- `const DAY_MS = 24*60*60*1000` in src/db/store.ts. -/
def DAY_MS : Int := 24 * 60 * 60 * 1000

/-- `pending_messages.message_type` (TS union "observation" | "summarize"). -/
inductive MessageType where
  | observation
  | summarize
deriving DecidableEq, Repr

/-- `pending_messages.status` (TS union "pending" | "processing" | "processed" | "failed"). -/
inductive MsgStatus where
  | pending
  | processing
  | processed
  | failed
deriving DecidableEq, Repr

/-- Row of `pending_messages` (src/types/models.ts PendingMessage). -/
structure PendingMessage where
  id : Nat
  session_db_id : Nat
  content_session_id : String
  message_type : MessageType
  dedupe_key : Option String
  tool_name : Option String
  tool_input : Option String
  tool_response : Option String
  cwd : Option String
  last_assistant_message : Option String
  prompt_number : Option Nat
  status : MsgStatus
  retry_count : Nat
  created_at_epoch : Int
  started_processing_at_epoch : Option Int
  completed_at_epoch : Option Int
  failed_at_epoch : Option Int
deriving DecidableEq, Repr

/-- Row of `processed_message_dedupe` (the dedupe ledger). -/
structure DedupeEntry where
  session_db_id : Nat
  message_type : MessageType
  dedupe_key : String
  created_at_epoch : Int
deriving DecidableEq, Repr

/-- Row of `sdk_sessions`. -/
structure SessionRow where
  id : Nat
  content_session_id : String
  memory_session_id : Option String
  project : String
  user_prompt : Option String
  started_at_epoch : Int
  status : String
deriving DecidableEq, Repr

/-- Row of `user_prompts`. -/
structure PromptRow where
  id : Nat
  content_session_id : String
  prompt_number : Nat
  prompt_text : String
  created_at_epoch : Int
  last_accessed_at_epoch : Option Int
  deleted_at_epoch : Option Int
deriving DecidableEq, Repr

/-- Row of `observations` (text columns that never influence control flow are kept
    as plain strings; `facts`/`concepts`/`files_*` are stored JSON strings). -/
structure ObservationRow where
  id : Nat
  memory_session_id : String
  project : String
  otype : String
  title : Option String
  subtitle : Option String
  facts : Option String
  narrative : Option String
  concepts : Option String
  prompt_number : Option Nat
  created_at_epoch : Int
  last_accessed_at_epoch : Option Int
  deleted_at_epoch : Option Int
deriving DecidableEq, Repr

/-- Row of `session_summaries`. -/
structure SummaryRow where
  id : Nat
  memory_session_id : String
  project : String
  request : Option String
  investigated : Option String
  learned : Option String
  completed : Option String
  next_steps : Option String
  notes : Option String
  prompt_number : Option Nat
  created_at_epoch : Int
  last_accessed_at_epoch : Option Int
  deleted_at_epoch : Option Int
deriving DecidableEq, Repr

/-- Row of `project_retention_policies` (INTEGER 0/1 flags become Bool). -/
structure PolicyRow where
  project : String
  enabled : Bool
  pinned : Bool
  ttl_days : Option Int
  updated_at_epoch : Int
deriving DecidableEq, Repr

/-- Row of `project_memory_activity`. -/
structure ActivityRow where
  project : String
  last_accessed_at_epoch : Int
  updated_at_epoch : Int
deriving DecidableEq, Repr

/-- The whole SQLite database of the Store, plus the AUTOINCREMENT counters. -/
structure StoreState where
  nextSessionId : Nat
  nextPromptId : Nat
  nextObservationId : Nat
  nextSummaryId : Nat
  nextMessageId : Nat
  sessions : List SessionRow
  user_prompts : List PromptRow
  observations : List ObservationRow
  summaries : List SummaryRow
  messages : List PendingMessage
  dedupe : List DedupeEntry
  policies : List PolicyRow
  activity : List ActivityRow
deriving DecidableEq, Repr

/-- The empty database (fresh Store). -/
def emptyStore : StoreState :=
  ⟨1, 1, 1, 1, 1, [], [], [], [], [], [], [], []⟩

/-- `touchProjectActivity`: upsert rows of `project_memory_activity`, keeping the
    larger last-access epoch (the CASE expression in the ON CONFLICT clause). -/
def touchProjectActivity (s : StoreState) (projects : List String) (atEpoch : Int) : StoreState :=
  let uniqueProjects := (projects.filter (fun p => p ≠ "")).dedup
  let step : StoreState → String → StoreState := fun st p =>
    if (st.activity.any (fun r => r.project == p)) then
      { st with activity := st.activity.map (fun r =>
          if r.project == p then
            { r with
              last_accessed_at_epoch :=
                if r.last_accessed_at_epoch < atEpoch then atEpoch
                else r.last_accessed_at_epoch,
              updated_at_epoch := atEpoch }
          else r) }
    else
      { st with activity := st.activity ++ [⟨p, atEpoch, atEpoch⟩] }
  uniqueProjects.foldl step s

/-- Result record of `enqueueObservation`/`enqueueSummarize`. -/
structure EnqueueResult where
  id : Nat
  deduped : Bool
deriving DecidableEq, Repr

/-- Observation enqueue payload (src/db/store.ts enqueueObservation signature). -/
structure ObservationPayload where
  tool_name : String
  tool_input : String
  tool_response : String
  cwd : String
  prompt_number : Nat
  dedupe_key : Option String
deriving DecidableEq, Repr

/-- `Store.enqueueObservation` (src/db/store.ts lines 328-383).  With a dedupe
    key, the ledger insert (INSERT OR IGNORE) and the queue insert run inside one
    transaction; modelled here as a single state transition.  When the ledger
    insert reports 0 changes, the already-queued item is looked up and returned
    with `deduped := true` (id 0 when the item was already consumed). -/
def enqueueObservation (s : StoreState) (sessionDbId : Nat) (contentSessionId : String)
    (payload : ObservationPayload) (now : Int) : EnqueueResult × StoreState :=
  match payload.dedupe_key with
  | none =>
    let msg : PendingMessage :=
      ⟨s.nextMessageId, sessionDbId, contentSessionId, .observation, none,
        some payload.tool_name, some payload.tool_input, some payload.tool_response,
        some payload.cwd, none, some payload.prompt_number, .pending, 0, now, none, none, none⟩
    (⟨s.nextMessageId, false⟩,
      { s with messages := s.messages ++ [msg], nextMessageId := s.nextMessageId + 1 })
  | some key =>
    if s.dedupe.any (fun e =>
        e.session_db_id == sessionDbId && e.message_type == MessageType.observation
          && e.dedupe_key == key) then
      let existing := s.messages.find? (fun m =>
        m.session_db_id == sessionDbId && m.message_type == MessageType.observation
          && m.dedupe_key == some key)
      (⟨(existing.map (fun m => m.id)).getD 0, true⟩, s)
    else
      let msg : PendingMessage :=
        ⟨s.nextMessageId, sessionDbId, contentSessionId, .observation, some key,
          some payload.tool_name, some payload.tool_input, some payload.tool_response,
          some payload.cwd, none, some payload.prompt_number, .pending, 0, now, none, none, none⟩
      (⟨s.nextMessageId, false⟩,
        { s with
          dedupe := s.dedupe ++ [⟨sessionDbId, .observation, key, now⟩],
          messages := s.messages ++ [msg],
          nextMessageId := s.nextMessageId + 1 })

/-- ORDER BY id ASC LIMIT 1: the row with the least id (first such row on ties;
    ids are unique in SQLite). -/
def minIdMsg : List PendingMessage → Option PendingMessage
  | [] => none
  | m :: rest =>
    match minIdMsg rest with
    | none => some m
    | some m2 => if m.id ≤ m2.id then some m else some m2

/-- `Store.claimNextPending` (src/db/store.ts lines 431-451): inside one
    transaction, select the oldest pending row of the session and flip it to
    processing, stamping `started_processing_at_epoch`.  The returned row is the
    row as selected (still carrying status pending), exactly as the source
    returns the object read before the UPDATE. -/
def claimNextPending (s : StoreState) (sid : Nat) (now : Int) :
    Option PendingMessage × StoreState :=
  let pend := s.messages.filter (fun m =>
    m.session_db_id == sid && m.status == MsgStatus.pending)
  match minIdMsg pend with
  | none => (none, s)
  | some m =>
    (some m,
      { s with messages := s.messages.map (fun x =>
          if x.id == m.id then
            { x with status := .processing, started_processing_at_epoch := some now }
          else x) })

/-- `Store.confirmProcessed`: DELETE FROM pending_messages WHERE id = ?. -/
def confirmProcessed (s : StoreState) (messageId : Nat) : StoreState :=
  { s with messages := s.messages.filter (fun m => !(m.id == messageId)) }

/-- `Store.markFailed` (src/db/store.ts lines 457-471): below the retry cap the
    row returns to pending with the retry count incremented; at the cap it
    becomes terminal failed. -/
def markFailed (s : StoreState) (messageId : Nat) (now : Int) : StoreState :=
  match s.messages.find? (fun m => m.id == messageId) with
  | none => s
  | some row =>
    if row.retry_count < MAX_RETRY then
      { s with messages := s.messages.map (fun m =>
          if m.id == messageId then
            { m with
              status := .pending,
              retry_count := m.retry_count + 1,
              started_processing_at_epoch := none }
          else m) }
    else
      { s with messages := s.messages.map (fun m =>
          if m.id == messageId then
            { m with status := .failed, failed_at_epoch := some now }
          else m) }

/-- `Store.getPendingCount`: rows of the session with status pending or processing. -/
def getPendingCount (s : StoreState) (sid : Nat) : Nat :=
  (s.messages.filter (fun m =>
    m.session_db_id == sid
      && (m.status == MsgStatus.pending || m.status == MsgStatus.processing))).length

/-- JS `String.prototype.trim` at char level: strip leading and trailing
    whitespace. -/
def trimChars (l : List Char) : List Char :=
  ((l.dropWhile Char.isWhitespace).reverse.dropWhile Char.isWhitespace).reverse

/-- JS `String.prototype.trim`. -/
def trimString (s : String) : String :=
  String.mk (trimChars s.toList)

/-- First occurrence split: returns the text before the first occurrence of
    `pat` and the text after it (JS `indexOf` + skip, used to model regex
    replacement of literal-delimited spans). -/
def splitFirst (pat : List Char) : List Char → Option (List Char × List Char)
  | [] => if pat.isEmpty then some ([], []) else none
  | c :: rest =>
    if pat.isPrefixOf (c :: rest) then some ([], (c :: rest).drop pat.length)
    else
      match splitFirst pat rest with
      | some (b, a) => some (c :: b, a)
      | none => none

/-- Global non-greedy removal of `openTag … closeTag` spans, left to right: the
    JS `/<tag>[\s\S]*?<\/tag>/g` replace in src/lib/tag-stripping.ts.  A span
    starts at the leftmost open tag and ends at the first close tag after it; an
    open tag with no later close tag matches nothing.  Fuel-bounded (the input
    length always suffices, each removal consumes at least the open tag). -/
def stripTagAll (openTag closeTag : List Char) : Nat → List Char → List Char
  | 0, s => s
  | fuel + 1, s =>
    match splitFirst openTag s with
    | none => s
    | some (before, afterOpen) =>
      match splitFirst closeTag afterOpen with
      | none => s
      | some (_, afterClose) => before ++ stripTagAll openTag closeTag fuel afterClose

/-- `stripTagsInternal` of src/lib/tag-stripping.ts.  Both branches of the
    MAX_TAG_COUNT guard perform the identical two replacements, so a single
    path is modelled: remove claude-mem-context spans, then private spans,
    then trim. -/
def stripTagsInternal (content : String) : String :=
  let cs := content.toList
  let s1 := stripTagAll "<claude-mem-context>".toList "</claude-mem-context>".toList cs.length cs
  let s2 := stripTagAll "<private>".toList "</private>".toList s1.length s1
  String.mk (trimChars s2)

/-- `stripMemoryTagsFromPrompt` of src/lib/tag-stripping.ts. -/
def stripMemoryTagsFromPrompt (content : String) : String :=
  stripTagsInternal content

/-- Substring test on char lists (models SQL `LIKE '%needle%'`). -/
def charsContains : List Char → List Char → Bool
  | [], nee => nee.isEmpty
  | c :: t, nee => nee.isPrefixOf (c :: t) || charsContains t nee

/-- SQLite `column LIKE '%q%'` on a non-null column (ASCII case-insensitive). -/
def likeContains (s q : String) : Bool :=
  charsContains s.toLower.toList q.toLower.toList

/-- SQLite `column LIKE '%q%'` on a nullable column: NULL never matches. -/
def likeOpt (field : Option String) (q : String) : Bool :=
  match field with
  | none => false
  | some s => likeContains s q

/-- `ORDER BY key DESC` (SQLite leaves tie order unspecified; insertion sort
    fixes one concrete order). -/
def sortDescBy (key : α → Int) (l : List α) : List α :=
  l.insertionSort (fun a b => key b ≤ key a)

/-- `ORDER BY key ASC`. -/
def sortAscBy (key : α → Int) (l : List α) : List α :=
  l.insertionSort (fun a b => key a ≤ key b)

/-- `Store.getSessionByContentSessionId`. -/
def getSessionByContentSessionId (s : StoreState) (cid : String) : Option SessionRow :=
  s.sessions.find? (fun r => r.content_session_id == cid)

/-- `Store.getSessionById`. -/
def getSessionById (s : StoreState) (sid : Nat) : Option SessionRow :=
  s.sessions.find? (fun r => r.id == sid)

/-- `Store.ensureMemorySessionIdRegistered`. -/
def ensureMemorySessionIdRegistered (s : StoreState) (sid : Nat) (mid : String) : StoreState :=
  { s with sessions := s.sessions.map (fun r =>
      if r.id == sid then { r with memory_session_id := some mid } else r) }

/-- `Store.createSDKSession` (src/db/store.ts lines 252-280): get-or-create by
    `content_session_id`; on reuse, a non-empty `project` backfills only rows
    whose project is still empty; on create, the raw `userPrompt` argument is
    stored in the new row and the project activity is touched. -/
def createSDKSession (s : StoreState) (contentSessionId project userPrompt : String)
    (now : Int) : Nat × StoreState :=
  match getSessionByContentSessionId s contentSessionId with
  | some existing =>
    let s1 :=
      if project ≠ "" then
        { s with sessions := s.sessions.map (fun r =>
            if r.content_session_id == contentSessionId && r.project == "" then
              { r with project := project }
            else r) }
      else s
    (existing.id, s1)
  | none =>
    let row : SessionRow :=
      ⟨s.nextSessionId, contentSessionId, none, project, some userPrompt, now, "active"⟩
    let s1 := { s with sessions := s.sessions ++ [row], nextSessionId := s.nextSessionId + 1 }
    (s.nextSessionId, touchProjectActivity s1 [project] now)

/-- `Store.saveUserPrompt`: insert a prompt row (last-access stamped, not
    deleted) and touch the owning project activity when the session has a
    non-empty project. -/
def saveUserPrompt (s : StoreState) (cid : String) (promptNumber : Nat)
    (promptText : String) (now : Int) : Nat × StoreState :=
  let row : PromptRow := ⟨s.nextPromptId, cid, promptNumber, promptText, now, some now, none⟩
  let s1 := { s with user_prompts := s.user_prompts ++ [row], nextPromptId := s.nextPromptId + 1 }
  let s2 :=
    match getSessionByContentSessionId s1 cid with
    | some sess => if sess.project ≠ "" then touchProjectActivity s1 [sess.project] now else s1
    | none => s1
  (s.nextPromptId, s2)

/-- `Store.getPromptNumberFromUserPrompts`: COUNT(*) of the session's prompts. -/
def getPromptNumberFromUserPrompts (s : StoreState) (cid : String) : Nat :=
  (s.user_prompts.filter (fun p => p.content_session_id == cid)).length

/-- `Store.getUserPrompt`: text of a given prompt number in a session. -/
def getUserPrompt (s : StoreState) (cid : String) (n : Nat) : Option String :=
  (s.user_prompts.find? (fun p =>
    p.content_session_id == cid && p.prompt_number == n)).map (fun p => p.prompt_text)

/-- Options record shared by the byIds readers (src/db/store.ts). -/
structure ByIdsOptions where
  dateAsc : Bool := false
  limit : Option Nat := none
  project : Option String := none
  obsTypes : List String := []
  dateStartEpoch : Option Int := none
  dateEndEpoch : Option Int := none

/-- The JS `options.limit ? LIMIT max(1, limit) : ""` clause: a limit of 0 is
    falsy and yields no LIMIT at all; otherwise at least 1 row is allowed. -/
def applyLimitTruthy (limit : Option Nat) (l : List α) : List α :=
  match limit with
  | none => l
  | some k => if k = 0 then l else l.take (max 1 k)

/-- WHERE clause of `Store.getObservationsByIds`. -/
def obsPassesByIds (s : StoreState) (ids : List Nat) (o : ByIdsOptions)
    (r : ObservationRow) : Bool :=
  ids.contains r.id && r.deleted_at_epoch == none
    && (match o.project with | none => true | some p => r.project == p)
    && (o.obsTypes.isEmpty || o.obsTypes.contains r.otype)
    && (match o.dateStartEpoch with | none => true | some d => decide (d ≤ r.created_at_epoch))
    && (match o.dateEndEpoch with | none => true | some d => decide (r.created_at_epoch ≤ d))

/-- `Store.getObservationsByIds` (filter by id set, deletion, project, types,
    date range; order by created date; truthy LIMIT). -/
def getObservationsByIds (s : StoreState) (ids : List Nat) (o : ByIdsOptions) :
    List ObservationRow :=
  if ids.isEmpty then []
  else
    let rows := s.observations.filter (obsPassesByIds s ids o)
    let sorted :=
      if o.dateAsc then sortAscBy (fun r => r.created_at_epoch) rows
      else sortDescBy (fun r => r.created_at_epoch) rows
    applyLimitTruthy o.limit sorted

/-- WHERE clause of `Store.getSummariesByIds`. -/
def sumPassesByIds (s : StoreState) (ids : List Nat) (o : ByIdsOptions)
    (r : SummaryRow) : Bool :=
  ids.contains r.id && r.deleted_at_epoch == none
    && (match o.project with | none => true | some p => r.project == p)
    && (match o.dateStartEpoch with | none => true | some d => decide (d ≤ r.created_at_epoch))
    && (match o.dateEndEpoch with | none => true | some d => decide (r.created_at_epoch ≤ d))

/-- `Store.getSummariesByIds`. -/
def getSummariesByIds (s : StoreState) (ids : List Nat) (o : ByIdsOptions) :
    List SummaryRow :=
  if ids.isEmpty then []
  else
    let rows := s.summaries.filter (sumPassesByIds s ids o)
    let sorted :=
      if o.dateAsc then sortAscBy (fun r => r.created_at_epoch) rows
      else sortDescBy (fun r => r.created_at_epoch) rows
    applyLimitTruthy o.limit sorted

/-- WHERE clause of `Store.getPromptsByIds`; the query is an inner JOIN on
    `sdk_sessions`, so a prompt with no session row never appears. -/
def promptPassesByIds (s : StoreState) (ids : List Nat) (o : ByIdsOptions)
    (p : PromptRow) : Bool :=
  ids.contains p.id && p.deleted_at_epoch == none
    && (match getSessionByContentSessionId s p.content_session_id with
        | none => false
        | some sess => match o.project with | none => true | some pr => sess.project == pr)
    && (match o.dateStartEpoch with | none => true | some d => decide (d ≤ p.created_at_epoch))
    && (match o.dateEndEpoch with | none => true | some d => decide (p.created_at_epoch ≤ d))

/-- `Store.getPromptsByIds`. -/
def getPromptsByIds (s : StoreState) (ids : List Nat) (o : ByIdsOptions) :
    List PromptRow :=
  if ids.isEmpty then []
  else
    let rows := s.user_prompts.filter (promptPassesByIds s ids o)
    let sorted :=
      if o.dateAsc then sortAscBy (fun r => r.created_at_epoch) rows
      else sortDescBy (fun r => r.created_at_epoch) rows
    applyLimitTruthy o.limit sorted

/-- `Store.getObservationById`: by-id fetch, filtered on `deleted_at_epoch IS NULL`. -/
def getObservationById (s : StoreState) (oid : Nat) : Option ObservationRow :=
  s.observations.find? (fun r => r.id == oid && r.deleted_at_epoch == none)

/-- `Store.listObservations`: (page items, total). -/
def listObservations (s : StoreState) (offset limit : Nat) (project : Option String) :
    List ObservationRow × Nat :=
  let rows := s.observations.filter (fun r =>
    r.deleted_at_epoch == none
      && (match project with | none => true | some p => r.project == p))
  (((sortDescBy (fun r => r.created_at_epoch) rows).drop offset).take limit, rows.length)

/-- `Store.listSummaries`. -/
def listSummaries (s : StoreState) (offset limit : Nat) (project : Option String) :
    List SummaryRow × Nat :=
  let rows := s.summaries.filter (fun r =>
    r.deleted_at_epoch == none
      && (match project with | none => true | some p => r.project == p))
  (((sortDescBy (fun r => r.created_at_epoch) rows).drop offset).take limit, rows.length)

/-- `Store.listPrompts`: the project filter goes through an IN subquery over
    `sdk_sessions`; without a project there is no session requirement. -/
def listPrompts (s : StoreState) (offset limit : Nat) (project : Option String) :
    List PromptRow × Nat :=
  let rows := s.user_prompts.filter (fun p =>
    p.deleted_at_epoch == none
      && (match project with
          | none => true
          | some pr =>
            match getSessionByContentSessionId s p.content_session_id with
            | none => false
            | some sess => sess.project == pr))
  (((sortDescBy (fun r => r.created_at_epoch) rows).drop offset).take limit, rows.length)

/-- Arguments of `Store.search`. -/
structure SearchArgs where
  query : Option String := none
  limit : Option Nat := none
  offset : Option Nat := none
  project : Option String := none
  includeObservations : Bool := true
  includeSessions : Bool := true
  includePrompts : Bool := true
  obsTypes : List String := []
  dateStartEpoch : Option Int := none
  dateEndEpoch : Option Int := none
  dateAsc : Bool := false

/-- ORDER BY … LIMIT ? OFFSET ? paging shared by the three search queries. -/
def pageRows (dateAsc : Bool) (offset limit : Nat) (key : α → Int) (rows : List α) :
    List α :=
  ((if dateAsc then sortAscBy key rows else sortDescBy key rows).drop offset).take limit

/-- `Store.search` (src/db/store.ts lines 809-935): three independent lexical
    queries, each filtered on `deleted_at_epoch IS NULL`, LIKE-matched when the
    trimmed query is non-empty, ordered by created date, paged. -/
def searchStore (s : StoreState) (args : SearchArgs) :
    List ObservationRow × List SummaryRow × List PromptRow :=
  let limit := max 1 (min (args.limit.getD 20) 100)
  let offset := args.offset.getD 0
  let q := trimString (args.query.getD "")
  let page := fun {α : Type} (rows : List α) (key : α → Int) =>
    pageRows args.dateAsc offset limit key rows
  let observations :=
    if args.includeObservations then
      page (s.observations.filter (fun r =>
        r.deleted_at_epoch == none
          && (q == "" || (likeOpt r.title q || likeOpt r.subtitle q || likeOpt r.narrative q))
          && (match args.project with | none => true | some p => r.project == p)
          && (args.obsTypes.isEmpty || args.obsTypes.contains r.otype)
          && (match args.dateStartEpoch with
              | none => true | some d => decide (d ≤ r.created_at_epoch))
          && (match args.dateEndEpoch with
              | none => true | some d => decide (r.created_at_epoch ≤ d))))
        (fun r => r.created_at_epoch)
    else []
  let sessions :=
    if args.includeSessions then
      page (s.summaries.filter (fun r =>
        r.deleted_at_epoch == none
          && (q == "" || (likeOpt r.request q || likeOpt r.investigated q || likeOpt r.learned q
                || likeOpt r.completed q || likeOpt r.next_steps q))
          && (match args.project with | none => true | some p => r.project == p)
          && (match args.dateStartEpoch with
              | none => true | some d => decide (d ≤ r.created_at_epoch))
          && (match args.dateEndEpoch with
              | none => true | some d => decide (r.created_at_epoch ≤ d))))
        (fun r => r.created_at_epoch)
    else []
  let prompts :=
    if args.includePrompts then
      page (s.user_prompts.filter (fun p =>
        p.deleted_at_epoch == none
          && (q == "" || likeContains p.prompt_text q)
          && (match getSessionByContentSessionId s p.content_session_id with
              | none => false
              | some sess =>
                match args.project with | none => true | some pr => sess.project == pr)
          && (match args.dateStartEpoch with
              | none => true | some d => decide (d ≤ p.created_at_epoch))
          && (match args.dateEndEpoch with
              | none => true | some d => decide (p.created_at_epoch ≤ d))))
        (fun p => p.created_at_epoch)
    else []
  (observations, sessions, prompts)

/-- Loop body of `mergeRowsWithPriority` (src/worker/server.ts lines 151-162):
    walk priority rows then lexical rows, skip ids already emitted, stop as soon
    as the merged length reaches the limit (checked after each push).  Every
    modelled row carries a valid Nat id, so the source's integer-id guard is
    vacuous here. -/
def mergeRowsWithPriorityAux (getId : α → Nat) (limit : Nat) :
    List Nat → List α → List α → List α
  | _, acc, [] => acc.reverse
  | seen, acc, r :: rest =>
    if seen.contains (getId r) then mergeRowsWithPriorityAux getId limit seen acc rest
    else
      let acc2 := r :: acc
      if limit ≤ acc2.length then acc2.reverse
      else mergeRowsWithPriorityAux getId limit (getId r :: seen) acc2 rest

/-- `mergeRowsWithPriority` of src/worker/server.ts. -/
def mergeRowsWithPriority (getId : α → Nat) (priorityRows lexicalRows : List α)
    (limit : Nat) : List α :=
  mergeRowsWithPriorityAux getId limit [] [] (priorityRows ++ lexicalRows)

/-- Observation branch of the GET /api/search vector hydration and merge
    (src/worker/server.ts lines 1840-1851): the collected vector ids are
    hydrated through `getObservationsByIds` with `orderBy: "date_desc"` and the
    page limit, then merged in front of the lexical rows. -/
def hydrateMergeObservations (s : StoreState) (vectorObservationIds : List Nat)
    (lexicalObservations : List ObservationRow) (limit : Nat) (project : Option String)
    (obsTypes : List String) (dateStartEpoch dateEndEpoch : Option Int) :
    List ObservationRow :=
  if vectorObservationIds.isEmpty then lexicalObservations
  else
    let vectorRows := getObservationsByIds s vectorObservationIds
      { dateAsc := false, limit := some limit, project := project, obsTypes := obsTypes,
        dateStartEpoch := dateStartEpoch, dateEndEpoch := dateEndEpoch }
    mergeRowsWithPriority (fun r => r.id) vectorRows lexicalObservations limit

/-- Summary branch of the GET /api/search vector hydration and merge
    (src/worker/server.ts lines 1853-1863). -/
def hydrateMergeSummaries (s : StoreState) (vectorSummaryIds : List Nat)
    (lexicalSessions : List SummaryRow) (limit : Nat) (project : Option String)
    (dateStartEpoch dateEndEpoch : Option Int) : List SummaryRow :=
  if vectorSummaryIds.isEmpty then lexicalSessions
  else
    let vectorRows := getSummariesByIds s vectorSummaryIds
      { dateAsc := false, limit := some limit, project := project,
        dateStartEpoch := dateStartEpoch, dateEndEpoch := dateEndEpoch }
    mergeRowsWithPriority (fun r => r.id) vectorRows lexicalSessions limit

/-- Prompt branch of the GET /api/search vector hydration and merge
    (src/worker/server.ts lines 1865-1875). -/
def hydrateMergePrompts (s : StoreState) (vectorPromptIds : List Nat)
    (lexicalPrompts : List PromptRow) (limit : Nat) (project : Option String)
    (dateStartEpoch dateEndEpoch : Option Int) : List PromptRow :=
  if vectorPromptIds.isEmpty then lexicalPrompts
  else
    let vectorRows := getPromptsByIds s vectorPromptIds
      { dateAsc := false, limit := some limit, project := project,
        dateStartEpoch := dateStartEpoch, dateEndEpoch := dateEndEpoch }
    mergeRowsWithPriority (fun r => r.id) vectorRows lexicalPrompts limit

/-- The "before" neighbour query of GET /api/timeline (src/worker/server.ts
    lines 1951-1955): observations strictly older than the anchor, newest
    first, limited to the requested depth.  Note: this query has no
    `deleted_at_epoch IS NULL` filter. -/
def timelineBefore (s : StoreState) (anchorEpoch : Int) (project : Option String)
    (depth : Nat) : List ObservationRow :=
  (sortDescBy (fun r => r.created_at_epoch)
    (s.observations.filter (fun r =>
      decide (r.created_at_epoch < anchorEpoch)
        && (match project with | none => true | some p => r.project == p)))).take depth

/-- The "after" neighbour query of GET /api/timeline (src/worker/server.ts
    lines 1957-1961); also without a deletion filter. -/
def timelineAfter (s : StoreState) (anchorEpoch : Int) (project : Option String)
    (depth : Nat) : List ObservationRow :=
  (sortAscBy (fun r => r.created_at_epoch)
    (s.observations.filter (fun r =>
      decide (anchorEpoch < r.created_at_epoch)
        && (match project with | none => true | some p => r.project == p)))).take depth

/-- The timeline item assembly (src/worker/server.ts line 1963). -/
def timelineItems (s : StoreState) (anchorRow : ObservationRow)
    (project : Option String) (depthBefore depthAfter : Nat) : List ObservationRow :=
  (timelineBefore s anchorRow.created_at_epoch project depthBefore).reverse
    ++ [anchorRow]
    ++ timelineAfter s anchorRow.created_at_epoch project depthAfter

/-- `Store.listRetentionProjects`: distinct non-empty projects from the five
    source tables (SQL UNION leaves order unspecified; one order is fixed). -/
def listRetentionProjects (s : StoreState) : List String :=
  (((s.sessions.map (fun r => r.project)) ++ (s.observations.map (fun r => r.project))
    ++ (s.summaries.map (fun r => r.project)) ++ (s.activity.map (fun r => r.project))
    ++ (s.policies.map (fun r => r.project))).filter (fun p => p ≠ "")).dedup

/-- Effective per-project policy (`Store.getProjectRetentionPolicy`): defaults
    enabled, not pinned, no ttl override. -/
structure EffPolicy where
  enabled : Bool
  pinned : Bool
  ttlDays : Option Int
deriving DecidableEq, Repr

/-- `Store.getProjectRetentionPolicy`. -/
def getProjectRetentionPolicy (s : StoreState) (project : String) : EffPolicy :=
  match s.policies.find? (fun r => r.project == project) with
  | none => ⟨true, false, none⟩
  | some r => ⟨r.enabled, r.pinned, r.ttl_days⟩

/-- Maximum of a list of epochs (SQL MAX; empty list gives NULL). -/
def maxIntList : List Int → Option Int
  | [] => none
  | x :: xs =>
    match maxIntList xs with
    | none => some x
    | some m => some (max x m)

/-- The prompt-to-project attribution used by the retention queries (JOIN or IN
    subquery over `sdk_sessions`, whose content ids are unique). -/
def promptBelongsToProject (s : StoreState) (project : String) (p : PromptRow) : Bool :=
  match getSessionByContentSessionId s p.content_session_id with
  | some sess => sess.project == project
  | none => false

/-- `Store.getProjectLastAccessEpoch`: overall MAX of
    COALESCE(last_accessed, created) over the live rows of the project across
    observations, summaries, prompts (via session join) and the project
    activity table. -/
def getProjectLastAccessEpoch (s : StoreState) (project : String) : Option Int :=
  maxIntList
    (((s.observations.filter (fun r =>
        r.project == project && r.deleted_at_epoch == none)).map
          (fun r => r.last_accessed_at_epoch.getD r.created_at_epoch))
      ++ ((s.summaries.filter (fun r =>
        r.project == project && r.deleted_at_epoch == none)).map
          (fun r => r.last_accessed_at_epoch.getD r.created_at_epoch))
      ++ ((s.user_prompts.filter (fun p =>
        p.deleted_at_epoch == none && promptBelongsToProject s project p)).map
          (fun p => p.last_accessed_at_epoch.getD p.created_at_epoch))
      ++ ((s.activity.filter (fun r => r.project == project)).map
          (fun r => r.last_accessed_at_epoch)))

/-- Options of `Store.runRetentionCleanup` (nowEpoch made explicit). -/
structure RetentionCleanupOptions where
  dryRun : Bool
  nowEpoch : Int
  defaultTtlDays : Int
  softDeleteDays : Int
deriving DecidableEq, Repr

/-- One entry of the cleanup report's `details` (the float `inactiveDays`
    display value is omitted: it is derived output formatting only). -/
structure RetentionDetail where
  project : String
  ttlDays : Int
  lastAccessEpoch : Option Int
  skippedReason : Option String
  softDeleteCandidate : Bool
  obsCount : Nat
  summaryCount : Nat
  promptCount : Nat
deriving DecidableEq, Repr

/-- The cleanup report (`RetentionCleanupReport`). -/
structure RetentionReport where
  dryRun : Bool
  nowEpoch : Int
  defaultTtlDays : Int
  softDeleteDays : Int
  scannedProjects : Nat
  skippedPinned : Nat
  skippedDisabled : Nat
  softDeletedProjects : Nat
  softDeletedObservations : Nat
  softDeletedSummaries : Nat
  softDeletedPrompts : Nat
  hardDeletedObservations : Nat
  hardDeletedSummaries : Nat
  hardDeletedPrompts : Nat
  details : List RetentionDetail
deriving DecidableEq, Repr

/-- Per-project body of the cleanup loop in `Store.runRetentionCleanup`
    (src/db/store.ts lines 1103-1172). -/
def retentionProjectStep (options : RetentionCleanupOptions) (defaultTtlDays : Int)
    (acc : RetentionReport × StoreState) (project : String) :
    RetentionReport × StoreState :=
  let rep := acc.1
  let st := acc.2
  let nowEpoch := options.nowEpoch
  let policy := getProjectRetentionPolicy st project
  let ttlDays :=
    match policy.ttlDays with
    | some t => if 0 < t then t else defaultTtlDays
    | none => defaultTtlDays
  let lastAccessEpoch := getProjectLastAccessEpoch st project
  let expired :=
    match lastAccessEpoch with
    | none => true
    | some la => decide (ttlDays * DAY_MS ≤ nowEpoch - la)
  let obsCount := (st.observations.filter (fun r =>
    r.project == project && r.deleted_at_epoch == none)).length
  let summaryCount := (st.summaries.filter (fun r =>
    r.project == project && r.deleted_at_epoch == none)).length
  let promptCount := (st.user_prompts.filter (fun p =>
    p.deleted_at_epoch == none && promptBelongsToProject st project p)).length
  if policy.pinned then
    ({ rep with
        skippedPinned := rep.skippedPinned + 1,
        details := rep.details ++
          [⟨project, ttlDays, lastAccessEpoch, some "pinned", false,
            obsCount, summaryCount, promptCount⟩] }, st)
  else if !policy.enabled then
    ({ rep with
        skippedDisabled := rep.skippedDisabled + 1,
        details := rep.details ++
          [⟨project, ttlDays, lastAccessEpoch, some "disabled", false,
            obsCount, summaryCount, promptCount⟩] }, st)
  else if !expired then
    ({ rep with
        details := rep.details ++
          [⟨project, ttlDays, lastAccessEpoch, some "not_expired", false,
            obsCount, summaryCount, promptCount⟩] }, st)
  else
    let rep2 :=
      { rep with
        softDeletedProjects := rep.softDeletedProjects + 1,
        softDeletedObservations := rep.softDeletedObservations + obsCount,
        softDeletedSummaries := rep.softDeletedSummaries + summaryCount,
        softDeletedPrompts := rep.softDeletedPrompts + promptCount,
        details := rep.details ++
          [⟨project, ttlDays, lastAccessEpoch, none, true,
            obsCount, summaryCount, promptCount⟩] }
    let st2 :=
      if options.dryRun then st
      else
        { st with
          observations := st.observations.map (fun r =>
            if r.project == project && r.deleted_at_epoch == none then
              { r with deleted_at_epoch := some nowEpoch }
            else r),
          summaries := st.summaries.map (fun r =>
            if r.project == project && r.deleted_at_epoch == none then
              { r with deleted_at_epoch := some nowEpoch }
            else r),
          user_prompts := st.user_prompts.map (fun p =>
            if p.deleted_at_epoch == none && promptBelongsToProject st project p then
              { p with deleted_at_epoch := some nowEpoch }
            else p) }
    (rep2, st2)

/-- Is the row hard-delete eligible: `deleted_at_epoch IS NOT NULL AND
    deleted_at_epoch <= cutoff`. -/
def hardEligible (deleted : Option Int) (cutoff : Int) : Bool :=
  match deleted with
  | none => false
  | some d => decide (d ≤ cutoff)

/-- `Store.runRetentionCleanup` (src/db/store.ts lines 1084-1198): per-project
    soft-delete pass (skipping pinned/disabled/not-expired projects), then the
    hard-delete sweep of rows soft-deleted longer than `softDeleteDays` ago.
    Dry-run computes the whole report but mutates nothing. -/
def runRetentionCleanup (s : StoreState) (options : RetentionCleanupOptions) :
    RetentionReport × StoreState :=
  let nowEpoch := options.nowEpoch
  let defaultTtlDays := max 1 options.defaultTtlDays
  let softDeleteDays := max 1 options.softDeleteDays
  let projects := listRetentionProjects s
  let report0 : RetentionReport :=
    ⟨options.dryRun, nowEpoch, defaultTtlDays, softDeleteDays, projects.length,
      0, 0, 0, 0, 0, 0, 0, 0, 0, []⟩
  let (rep1, s1) := projects.foldl (retentionProjectStep options defaultTtlDays) (report0, s)
  let cutoff := nowEpoch - softDeleteDays * DAY_MS
  let hardObs := (s1.observations.filter (fun r =>
    hardEligible r.deleted_at_epoch cutoff)).length
  let hardSum := (s1.summaries.filter (fun r =>
    hardEligible r.deleted_at_epoch cutoff)).length
  let hardPrompt := (s1.user_prompts.filter (fun p =>
    hardEligible p.deleted_at_epoch cutoff)).length
  let rep2 :=
    { rep1 with
      hardDeletedObservations := hardObs,
      hardDeletedSummaries := hardSum,
      hardDeletedPrompts := hardPrompt }
  let s2 :=
    if options.dryRun then s1
    else
      { s1 with
        observations := s1.observations.filter (fun r =>
          !(hardEligible r.deleted_at_epoch cutoff)),
        summaries := s1.summaries.filter (fun r =>
          !(hardEligible r.deleted_at_epoch cutoff)),
        user_prompts := s1.user_prompts.filter (fun p =>
          !(hardEligible p.deleted_at_epoch cutoff)) }
  (rep2, s2)

/-- Worker process state: the Store plus the in-memory `activeSessions` set
    (src/worker/server.ts line 19). -/
structure ServerState where
  store : StoreState
  active : List Nat
deriving DecidableEq, Repr

/-- An endpoint either rejects the request with 400 or answers with a body. -/
inductive ApiOutcome (α : Type) where
  | badRequest
  | ok (r : α)
deriving DecidableEq, Repr

/-- Response body of POST /api/sessions/init. -/
structure InitResponse where
  sessionDbId : Nat
  promptNumber : Nat
  skipped : Bool
  reason : Option String
deriving DecidableEq, Repr

/-- POST /api/sessions/init (src/worker/server.ts lines 1076-1105): create or
    reuse the session (the raw prompt is passed to `createSDKSession`), mark it
    active, compute the prompt number as existing-count + 1, strip privacy
    markers, and either skip as private (empty cleaned prompt) or persist the
    cleaned prompt.  Chroma prompt indexing is external vector I/O and is not
    modelled. -/
def sessionsInit (srv : ServerState) (contentSessionId project prompt : String)
    (now : Int) : ApiOutcome InitResponse × ServerState :=
  if contentSessionId == "" || project == "" then (.badRequest, srv)
  else
    let idSt := createSDKSession srv.store contentSessionId project prompt now
    let sessionDbId := idSt.1
    let st1 := idSt.2
    let active1 :=
      if srv.active.contains sessionDbId then srv.active else srv.active ++ [sessionDbId]
    let currentCount := getPromptNumberFromUserPrompts st1 contentSessionId
    let promptNumber := currentCount + 1
    let cleanedPrompt := stripMemoryTagsFromPrompt prompt
    if trimString cleanedPrompt == "" then
      (.ok ⟨sessionDbId, promptNumber, true, some "private"⟩, ⟨st1, active1⟩)
    else
      let st2 := (saveUserPrompt st1 contentSessionId promptNumber cleanedPrompt now).2
      (.ok ⟨sessionDbId, promptNumber, false, none⟩, ⟨st2, active1⟩)

/-- Response body of POST /api/sessions/complete. -/
structure CompleteResponse where
  status : String
  reason : Option String
  sessionDbId : Option Nat
deriving DecidableEq, Repr

/-- POST /api/sessions/complete (src/worker/server.ts lines 1241-1258): look
    the session up by external id in the database; if absent answer
    `skipped/not_active`, otherwise remove the id from the in-memory active set
    and answer `completed`. -/
def sessionsComplete (srv : ServerState) (contentSessionId : String) :
    ApiOutcome CompleteResponse × ServerState :=
  if contentSessionId == "" then (.badRequest, srv)
  else
    match getSessionByContentSessionId srv.store contentSessionId with
    | none => (.ok ⟨"skipped", some "not_active", none⟩, srv)
    | some sess =>
      (.ok ⟨"completed", none, some sess.id⟩,
        { srv with active := srv.active.filter (fun x => !(x == sess.id)) })

/-- The Agent outcome oracle for one drain run: whether processing the queue
    item with the given id succeeds or throws. -/
structure DrainEnv where
  agentOk : Nat → Bool

/-- Loop body of `processSessionQueue` (src/worker/server.ts lines 479-628),
    fuel-bounded.  Per iteration: claim the next pending item (this flips it to
    processing); break when none, or when the claimed id was already seen in
    this run; otherwise look the session up (missing session: markFailed,
    continue, no Agent call), invoke the Agent once, confirm on success or
    markFailed on exception.  The returned Bool is true when the loop ended by
    reaching one of its break conditions rather than by fuel exhaustion.
    `invoked` is the ordered log of queue item ids the Agent was invoked for.
    Successful results are written to the observations/summaries tables, which
    this loop never reads back; those writes, SSE broadcasts and the timing
    metrics are not modelled. -/
def processSessionQueueAux (env : DrainEnv) (sid : Nat) (now : Int) :
    Nat → StoreState → List Nat → List Nat → StoreState × List Nat × Bool
  | 0, st, _, invoked => (st, invoked, false)
  | fuel + 1, st, seen, invoked =>
    match claimNextPending st sid now with
    | (none, st1) => (st1, invoked, true)
    | (some m, st1) =>
      if seen.contains m.id then (st1, invoked, true)
      else
        let seen2 := m.id :: seen
        match getSessionById st1 m.session_db_id with
        | none =>
          processSessionQueueAux env sid now fuel (markFailed st1 m.id now) seen2 invoked
        | some session =>
          let memFalsy := session.memory_session_id == none
            || session.memory_session_id == some ""
          let memorySessionId :=
            if memFalsy then "cmem-" ++ toString session.id
            else session.memory_session_id.getD ""
          let st2 :=
            if memFalsy then ensureMemorySessionIdRegistered st1 session.id memorySessionId
            else st1
          let invoked2 := invoked ++ [m.id]
          if env.agentOk m.id then
            processSessionQueueAux env sid now fuel (confirmProcessed st2 m.id) seen2 invoked2
          else
            processSessionQueueAux env sid now fuel (markFailed st2 m.id now) seen2 invoked2

/-- One invocation of `processSessionQueue` for a session, with the given fuel. -/
def processSessionQueue (env : DrainEnv) (s : StoreState) (sid : Nat) (now : Int)
    (fuel : Nat) : StoreState × List Nat × Bool :=
  processSessionQueueAux env sid now fuel s [] []

/-- One failure cycle of a queue item: claim it, then the processing throws and
    `markFailed` runs (the error path of processSessionQueue). -/
def failRoundOnce (st : StoreState) (sid : Nat) (now : Int) : StoreState :=
  match claimNextPending st sid now with
  | (some m, st1) => markFailed st1 m.id now
  | (none, st1) => st1

/-- First row with the given queue item id. -/
def rowById (s : StoreState) (mid : Nat) : Option PendingMessage :=
  s.messages.find? (fun m => m.id == mid)

/-- Keep the first occurrence of every id, dropping later duplicates;
    `seen` holds the ids already kept. -/
def dedupKeepFirstByAux (getId : α → Nat) (seen : List Nat) : List α → List α
  | [] => []
  | x :: rest =>
    if seen.contains (getId x) then dedupKeepFirstByAux getId seen rest
    else x :: dedupKeepFirstByAux getId (getId x :: seen) rest

/-- Keep the first occurrence of every id, dropping later duplicates. -/
def dedupKeepFirstBy (getId : α → Nat) (l : List α) : List α :=
  dedupKeepFirstByAux getId [] l

/-- Modelled from the spec merge wording (claim C4): the final ordered id list
    takes vector-ranked ids first, in vector rank order, deduplicated across
    both vector sources by keeping first-seen, then appends lexical-ranked ids
    not already included, truncated to the page limit. -/
def specHybridMergeIds (vectorIds lexicalIds : List Nat) (limit : Nat) : List Nat :=
  (dedupKeepFirstBy (fun i => i) (vectorIds ++ lexicalIds)).take limit

/-- The expiry test of the retention loop, phrased over the pre-cleanup state
    (its inputs are invariant until the project's own step runs): effective ttl
    from the policy override or the default, last access from
    `getProjectLastAccessEpoch`, missing last access counting as infinitely
    stale. -/
def retentionExpired (s : StoreState) (options : RetentionCleanupOptions)
    (project : String) : Bool :=
  let defaultTtlDays := max 1 options.defaultTtlDays
  let policy := getProjectRetentionPolicy s project
  let ttlDays :=
    match policy.ttlDays with
    | some t => if 0 < t then t else defaultTtlDays
    | none => defaultTtlDays
  match getProjectLastAccessEpoch s project with
  | none => true
  | some la => decide (ttlDays * DAY_MS ≤ options.nowEpoch - la)

/-- COUNT(*) of session rows carrying the given external id (used to state the
    no-duplicate-session-row property). -/
def sessionCountFor (s : StoreState) (cid : String) : Nat :=
  (s.sessions.filter (fun r => r.content_session_id == cid)).length

/- Concrete instances used by the closed counterexample and witness theorems. -/

/-- A concrete observation enqueue payload with dedupe key "k1". -/
def payK1 : ObservationPayload := ⟨"Run", "{}", "{}", "/tmp", 1, some "k1"⟩

/-- A concrete payload without a dedupe key. -/
def payPlain : ObservationPayload := ⟨"Run", "{}", "{}", "/tmp", 1, none⟩

/-- Fresh store holding one session row for session db id 1. -/
def oneSessionStore : StoreState :=
  { emptyStore with sessions := [⟨1, "s1", none, "p", some "hello", 0, "active"⟩] }

/-- A single freshly enqueued (keyless) queue item on session 1. -/
def oneItemQueue : StoreState :=
  (enqueueObservation oneSessionStore 1 "s1" payPlain 0).2

/-- Two live observations of one project: id 1 older (epoch 10), id 2 newer
    (epoch 20). -/
def twoObsStore : StoreState :=
  { emptyStore with observations :=
      [⟨1, "m", "p", "discovery", some "t1", none, none, none, none, some 1, 10, none, none⟩,
        ⟨2, "m", "p", "discovery", some "t2", none, none, none, none, some 1, 20, none, none⟩] }

/-- The soft-deleted observation used by the timeline counterexample. -/
def deletedObs : ObservationRow :=
  ⟨1, "m", "p", "discovery", some "old", none, none, none, none, some 1, 10, none, some 5⟩

/-- A store holding the soft-deleted observation next to a live anchor
    observation (id 2, epoch 20). -/
def timelineStore : StoreState :=
  { emptyStore with observations :=
      [deletedObs,
        ⟨2, "m", "p", "discovery", some "anchor", none, none, none, none, some 1, 20, none, none⟩] }

/-- An empty worker state. -/
def emptyServer : ServerState := ⟨emptyStore, []⟩

/-- Worker state with one registered, active session. -/
def oneSessionServer : ServerState := ⟨oneSessionStore, [1]⟩

/-- The single live observation of project "proj", last accessed at epoch 0. -/
def retentionObsRow : ObservationRow :=
  ⟨1, "m", "proj", "discovery", some "t", none, none, none, none, some 1, 0, some 0, none⟩

/-- Retention example: one live observation of project "proj" last accessed at
    epoch 0, no policy rows. -/
def retentionStoreExpired : StoreState :=
  { emptyStore with observations := [retentionObsRow] }

/-- Retention example: the same stale project, but pinned by policy. -/
def retentionStorePinned : StoreState :=
  { retentionStoreExpired with policies := [⟨"proj", true, true, none, 0⟩] }

/-- Retention options: execute mode, 40 days after the last access, default
    ttl 30 days, soft-delete grace 7 days. -/
def retentionOpts : RetentionCleanupOptions := ⟨false, 40 * DAY_MS, 30, 7⟩

/-- An Agent oracle that always fails. -/
def alwaysFailingAgent : DrainEnv := ⟨fun _ => false⟩

/-- Two keyless queue items (ids 1 and 2) on session 1. -/
def twoItemQueue : StoreState :=
  (enqueueObservation (enqueueObservation oneSessionStore 1 "s1" payPlain 0).2 1 "s1"
    ⟨"Other", "{}", "{}", "/tmp", 1, none⟩ 0).2

/-- Number of queue rows of a session whose id has not yet been seen by the
    drain loop: the termination measure of `processSessionQueue`. -/
def unseenCntL (l : List PendingMessage) (sid : Nat) (seen : List Nat) : Nat :=
  (l.filter (fun m => m.session_db_id == sid && !(seen.contains m.id))).length

/-- Invariant tying a mid-cleanup state to the starting state as far as one
    project P is concerned: the fixed tables are unchanged and the rows
    attributed to P (observations, summaries, prompts via their sessions) are
    exactly the original ones. -/
def RetInv (s : StoreState) (P : String) (st : StoreState) : Prop :=
  st.sessions = s.sessions ∧ st.policies = s.policies ∧ st.activity = s.activity
    ∧ st.observations.filter (fun r => r.project == P)
        = s.observations.filter (fun r => r.project == P)
    ∧ st.summaries.filter (fun r => r.project == P)
        = s.summaries.filter (fun r => r.project == P)
    ∧ st.user_prompts.filter (fun pr => promptBelongsToProject s P pr)
        = s.user_prompts.filter (fun pr => promptBelongsToProject s P pr)

/-- Claim C2, counterexample: a fresh queue item that has gone through three
    claim-and-fail cycles is still `pending` with retry count 3 — not terminal
    `failed` — and `claimNext` still returns it, so the item does not become
    `failed` "after exactly 3 failures" as claimed; the terminal transition
    happens only on the fourth failure. -/
theorem retry_cap_three_failures_counterexample :
    let st3 := failRoundOnce (failRoundOnce (failRoundOnce oneItemQueue 1 0) 1 0) 1 0
    st3.messages.map (fun m => (m.status, m.retry_count)) = [(.pending, 3)]
      ∧ (claimNextPending st3 1 0).1.isSome = true
      ∧ (failRoundOnce st3 1 0).messages.map (fun m => (m.status, m.retry_count))
          = [(.failed, 3)] := by
  decide

/-- Claim C4, counterexample: with vector rank order [1, 2] (row 1 older, row 2
    newer) and no lexical rows, the served merge hydrates through
    `getObservationsByIds` with date-descending order and returns [2, 1], while
    the spec-worded merge (vector rank order first) returns [1, 2] — the merged
    result does not begin with V in vector rank order. -/
theorem hybrid_merge_vector_rank_counterexample :
    (hydrateMergeObservations twoObsStore [1, 2] [] 20 none [] none none).map
        (fun r => r.id) = [2, 1]
      ∧ specHybridMergeIds [1, 2] [] 20 = [1, 2] := by
  decide

/-- Claim C6, counterexample: the timeline "before" neighbour query returns the
    soft-deleted observation (id 1, `deleted_at_epoch = some 5`) even though
    the by-id read path refuses it, so a row with non-null deletedAt is not
    excluded from every read path. -/
theorem deleted_row_timeline_counterexample :
    deletedObs ∈ timelineStore.observations
      ∧ deletedObs.deleted_at_epoch = some 5
      ∧ timelineBefore timelineStore 20 none 3 = [deletedObs]
      ∧ getObservationById timelineStore 1 = none := by
  decide

/-- Claim C7, counterexample: calling session init twice with the same
    contentSessionId, project and prompt returns promptNumber 1 then 2 (not 1
    both times), and the duplicate call inserts a second prompt row. -/
theorem init_twice_prompt_number_counterexample :
    let o1 := sessionsInit emptyServer "s1" "p" "hello" 100
    let o2 := sessionsInit o1.2 "s1" "p" "hello" 200
    o1.1 = .ok ⟨1, 1, false, none⟩
      ∧ o2.1 = .ok ⟨1, 2, false, none⟩
      ∧ o2.2.store.user_prompts.length = 2
      ∧ o2.2.store.sessions.length = 1 := by
  decide

/-- Claim C8, counterexample: an init call whose prompt is empty after privacy
    stripping does return skipped/private and stores no prompt row, yet the raw
    prompt text is persisted in the new session row's `user_prompt` column
    (`createSDKSession` receives the prompt before stripping), so "the prompt
    is not persisted" fails as stated. -/
theorem private_prompt_persisted_counterexample :
    let o := sessionsInit emptyServer "s1" "p" "<private>x</private>" 100
    o.1 = .ok ⟨1, 1, true, some "private"⟩
      ∧ o.2.store.user_prompts = []
      ∧ o.2.store.sessions.map (fun r => r.user_prompt) = [some "<private>x</private>"] := by
  decide

/-- Claim C9, counterexample: after a successful complete call, a repeat call
    for the same external session id again answers `completed` (the lookup is
    against the session table, not the active set) — it does not answer
    `skipped` with reason not_active as claimed. -/
theorem repeat_complete_counterexample :
    let o1 := sessionsComplete oneSessionServer "s1"
    let o2 := sessionsComplete o1.2 "s1"
    o1.1 = .ok ⟨"completed", none, some 1⟩
      ∧ o1.2.active = []
      ∧ o2.1 = .ok ⟨"completed", none, some 1⟩
      ∧ o2.1 ≠ .ok ⟨"skipped", some "not_active", none⟩ := by
  decide

/- Shared helper lemmas. -/

/-- `touchProjectActivity` only writes the activity table. -/
theorem touchProjectActivity_eq (s : StoreState) (ps : List String) (atEpoch : Int) :
    ∃ a, touchProjectActivity s ps atEpoch = { s with activity := a } := by
  unfold touchProjectActivity
  generalize (ps.filter (fun p => p ≠ "")).dedup = l
  induction l generalizing s with
  | nil => exact ⟨s.activity, rfl⟩
  | cons p t ih =>
    rw [List.foldl_cons]
    by_cases h : s.activity.any (fun r => r.project == p)
    · simpa [h] using ih _
    · simpa [h] using ih _

/-- `createSDKSession` never touches the prompt table. -/
theorem createSDKSession_user_prompts (s : StoreState) (cid proj up : String) (now : Int) :
    (createSDKSession s cid proj up now).2.user_prompts = s.user_prompts := by
  unfold createSDKSession
  cases h : getSessionByContentSessionId s cid with
  | some sess => by_cases hp : proj ≠ "" <;> simp [hp]
  | none =>
    obtain ⟨a, ha⟩ := touchProjectActivity_eq
      { s with
        sessions := s.sessions ++ [⟨s.nextSessionId, cid, none, proj, some up, now, "active"⟩],
        nextSessionId := s.nextSessionId + 1 } [proj] now
    simp [ha]

/-- `sessionsComplete` never touches the store. -/
theorem sessionsComplete_store (srv : ServerState) (cid : String) :
    (sessionsComplete srv cid).2.store = srv.store := by
  unfold sessionsComplete
  by_cases h : cid == ""
  · simp [h]
  · cases hs : getSessionByContentSessionId srv.store cid <;> simp [h, hs]

/-- Claim C9 (amended): `complete` removes the session from the active set and
    answers `completed`; a repeat call after completion again answers
    `completed` with the same session id (never an error), because the lookup
    runs against the session table, which `complete` does not modify; the
    `skipped`/`not_active` answer occurs exactly when no session row exists for
    the external id. -/
theorem complete_active_removal_and_repeat (srv : ServerState) (cid : String)
    (hcid : cid ≠ "") :
    (∀ sess, getSessionByContentSessionId srv.store cid = some sess →
      (sessionsComplete srv cid).1 = .ok ⟨"completed", none, some sess.id⟩
        ∧ sess.id ∉ (sessionsComplete srv cid).2.active
        ∧ (sessionsComplete (sessionsComplete srv cid).2 cid).1
            = .ok ⟨"completed", none, some sess.id⟩)
  ∧ (getSessionByContentSessionId srv.store cid = none →
      (sessionsComplete srv cid) = (.ok ⟨"skipped", some "not_active", none⟩, srv)) := by
  have hbeq : (cid == "") = false := by simpa using hcid
  constructor
  · intro sess hsess
    refine ⟨?_, ?_, ?_⟩
    · simp [sessionsComplete, hbeq, hsess]
    · simp [sessionsComplete, hbeq, hsess]
    · have hsess2 : getSessionByContentSessionId (sessionsComplete srv cid).2.store cid
          = some sess := by
        rw [sessionsComplete_store srv cid]; exact hsess
      conv_lhs => rw [sessionsComplete]
      simp [hbeq, hsess2]
  · intro hnone
    simp [sessionsComplete, hbeq, hnone]

/-- Claim C9 witness: the repeat-complete behaviour at a concrete one-session
    worker state. -/
theorem complete_active_removal_and_repeat_witness :
    ("s1" ≠ "")
      ∧ (sessionsComplete oneSessionServer "s1").1 = .ok ⟨"completed", none, some 1⟩ := by
  refine ⟨by decide, ?_⟩
  have h := (complete_active_removal_and_repeat oneSessionServer "s1" (by decide)).1
    ⟨1, "s1", none, "p", some "hello", 0, "active"⟩ (by decide)
  exact h.1

/-- Claim C8 (amended): an init call whose prompt strips to empty answers
    `skipped = true` with reason `private` and inserts no row into the prompt
    table (the prompt is never stored as a visible prompt record); the raw
    prompt is still written to the session row's `user_prompt` column when the
    session is first created. -/
theorem private_init_no_prompt_row (srv : ServerState) (cid proj prompt : String)
    (now : Int) (hcid : cid ≠ "") (hproj : proj ≠ "")
    (hpriv : trimString (stripMemoryTagsFromPrompt prompt) = "") :
    ∃ r, (sessionsInit srv cid proj prompt now).1 = .ok r
      ∧ r.skipped = true ∧ r.reason = some "private"
      ∧ (sessionsInit srv cid proj prompt now).2.store.user_prompts
          = srv.store.user_prompts := by
  have hc : (cid == "") = false := by simpa using hcid
  have hp : (proj == "") = false := by simpa using hproj
  have hup := createSDKSession_user_prompts srv.store cid proj prompt now
  refine ⟨⟨(createSDKSession srv.store cid proj prompt now).1,
    getPromptNumberFromUserPrompts (createSDKSession srv.store cid proj prompt now).2 cid + 1,
    true, some "private"⟩, ?_⟩
  simp [sessionsInit, hc, hp, hpriv, hup]

/-- Claim C8 witness: the private-skip behaviour at a concrete input. -/
theorem private_init_no_prompt_row_witness :
    ("s1" ≠ "") ∧ ("p" ≠ "")
      ∧ trimString (stripMemoryTagsFromPrompt "<private>x</private>") = ""
      ∧ ∃ r, (sessionsInit emptyServer "s1" "p" "<private>x</private>" 7).1 = .ok r
          ∧ r.skipped = true ∧ r.reason = some "private"
          ∧ (sessionsInit emptyServer "s1" "p" "<private>x</private>" 7).2.store.user_prompts
              = emptyServer.store.user_prompts := by
  exact ⟨by decide, by decide, by decide,
    private_init_no_prompt_row emptyServer "s1" "p" "<private>x</private>" 7
      (by decide) (by decide) (by decide)⟩

/-- find? by id commutes with an id-preserving row update. -/
theorem find?_id_map (l : List PendingMessage) (mid : Nat)
    (f : PendingMessage → PendingMessage) (hf : ∀ x, (f x).id = x.id) :
    (l.map f).find? (fun m => m.id == mid) = (l.find? (fun m => m.id == mid)).map f := by
  induction l with
  | nil => rfl
  | cons a t ih =>
    by_cases h : (a.id == mid) = true
    · rw [List.map_cons, List.find?_cons_of_pos, List.find?_cons_of_pos]
      · simp
      · exact h
      · simpa [hf a] using h
    · rw [List.map_cons, List.find?_cons_of_neg, List.find?_cons_of_neg, ih]
      · simpa using h
      · simpa [hf a] using by simpa using h

/-- Rows with equal ids coincide when the id column is duplicate-free. -/
theorem nodup_id_unique {l : List PendingMessage}
    (h : (l.map (fun m => m.id)).Nodup) {x y : PendingMessage}
    (hx : x ∈ l) (hy : y ∈ l) (hxy : x.id = y.id) : x = y := by
  induction l with
  | nil => cases hx
  | cons a t ih =>
    rw [List.map_cons, List.nodup_cons] at h
    rcases List.mem_cons.mp hx with rfl | hx2
    · rcases List.mem_cons.mp hy with rfl | hy2
      · rfl
      · exact absurd (hxy ▸ List.mem_map_of_mem (fun m => m.id) hy2) h.1
    · rcases List.mem_cons.mp hy with rfl | hy2
      · exact absurd (hxy ▸ List.mem_map_of_mem (fun m => m.id) hx2) h.1
      · exact ih h.2 hx2 hy2

/-- `minIdMsg` yields none exactly on the empty list. -/
theorem minIdMsg_none_iff {l : List PendingMessage} : minIdMsg l = none ↔ l = [] := by
  cases l with
  | nil => simp [minIdMsg]
  | cons a t =>
    simp only [minIdMsg]
    cases minIdMsg t with
    | none => simp
    | some m2 => by_cases h : a.id ≤ m2.id <;> simp [h]

/-- `minIdMsg` returns a member of the list. -/
theorem minIdMsg_mem : ∀ {l : List PendingMessage} {m : PendingMessage},
    minIdMsg l = some m → m ∈ l
  | [], m, h => by cases h
  | a :: t, m, h => by
    rw [minIdMsg] at h
    cases ht : minIdMsg t with
    | none => rw [ht] at h; cases h; exact List.mem_cons_self a t
    | some m2 =>
      rw [ht] at h
      by_cases hle : a.id ≤ m2.id
      · simp only [hle, if_true] at h; cases h; exact List.mem_cons_self a t
      · simp only [hle, if_false] at h; cases h
        exact List.mem_cons_of_mem a (minIdMsg_mem ht)

/-- `minIdMsg` returns a row of least id. -/
theorem minIdMsg_le : ∀ {l : List PendingMessage} {m : PendingMessage},
    minIdMsg l = some m → ∀ x ∈ l, m.id ≤ x.id
  | [], m, h => by cases h
  | a :: t, m, h => by
    rw [minIdMsg] at h
    cases ht : minIdMsg t with
    | none =>
      rw [ht] at h; cases h
      intro x hx
      rcases List.mem_cons.mp hx with rfl | hx2
      · exact Nat.le_refl _
      · rw [minIdMsg_none_iff.mp ht] at hx2; cases hx2
    | some m2 =>
      rw [ht] at h
      by_cases hle : a.id ≤ m2.id
      · simp only [hle, if_true] at h; cases h
        intro x hx
        rcases List.mem_cons.mp hx with rfl | hx2
        · exact Nat.le_refl _
        · exact Nat.le_trans hle (minIdMsg_le ht x hx2)
      · simp only [hle, if_false] at h; cases h
        intro x hx
        rcases List.mem_cons.mp hx with rfl | hx2
        · exact Nat.le_of_lt (Nat.lt_of_not_le hle)
        · exact minIdMsg_le ht x hx2

/-- Everything the select-and-flip of `claimNextPending` guarantees when it
    returns a row: membership, session, pending status, id-minimality among the
    session's pending rows, and the exact shape of the updated table. -/
theorem claimNextPending_some {s : StoreState} {sid : Nat} {now : Int}
    {m : PendingMessage} {s2 : StoreState}
    (h : claimNextPending s sid now = (some m, s2)) :
    m ∈ s.messages ∧ m.session_db_id = sid ∧ m.status = .pending
      ∧ (∀ x ∈ s.messages, x.session_db_id = sid → x.status = .pending → m.id ≤ x.id)
      ∧ s2.messages = s.messages.map (fun x =>
          if x.id == m.id then
            { x with status := .processing, started_processing_at_epoch := some now }
          else x) := by
  simp only [claimNextPending] at h
  cases hmin : minIdMsg (s.messages.filter (fun x =>
      x.session_db_id == sid && x.status == MsgStatus.pending)) with
  | none => rw [hmin] at h; simp at h
  | some m2 =>
    rw [hmin] at h
    rw [Prod.mk.injEq] at h
    obtain ⟨hm, hs2⟩ := h
    have hm2 : m2 = m := by simpa using hm
    subst hm2
    have hmemf := minIdMsg_mem hmin
    have hmf := List.mem_filter.mp hmemf
    have hpred := hmf.2
    simp only [Bool.and_eq_true, beq_iff_eq] at hpred
    refine ⟨hmf.1, hpred.1, hpred.2, ?_, ?_⟩
    · intro x hx hxs hxp
      exact minIdMsg_le hmin x (List.mem_filter.mpr ⟨hx, by simp [hxs, hxp]⟩)
    · rw [← hs2]

/-- When `claimNextPending` returns none the state is unchanged and no pending
    row of the session exists. -/
theorem claimNextPending_none {s : StoreState} {sid : Nat} {now : Int}
    (h : (claimNextPending s sid now).1 = none) :
    claimNextPending s sid now = (none, s)
      ∧ ∀ x ∈ s.messages, ¬(x.session_db_id = sid ∧ x.status = .pending) := by
  simp only [claimNextPending] at h ⊢
  cases hmin : minIdMsg (s.messages.filter (fun x =>
      x.session_db_id == sid && x.status == MsgStatus.pending)) with
  | some m2 => rw [hmin] at h; simp at h
  | none =>
    have hnil := minIdMsg_none_iff.mp hmin
    refine ⟨rfl, ?_⟩
    intro x hx hcontr
    have : x ∈ s.messages.filter (fun x =>
        x.session_db_id == sid && x.status == MsgStatus.pending) := by
      exact List.mem_filter.mpr ⟨hx, by simp [hcontr.1, hcontr.2]⟩
    rw [hnil] at this
    cases this

/-- Claim C2 (amended): `markFailed` on a row with retryCount < 3 resets it to
    pending with retryCount incremented (claim stamp cleared); at retryCount ≥ 3
    it becomes terminal failed with the failure stamped; retryCount never
    exceeds the cap of 3; `claimNext` only ever returns pending rows (never a
    failed one); and a fresh item that keeps failing follows
    pending→(processing→pending)×3→processing→failed, reaching terminal
    `failed` on the fourth failure — three retries after the initial attempt —
    with retryCount capped at 3 and `claimNext` returning none afterwards. -/
theorem mark_failed_retry_semantics (s : StoreState) (mid : Nat) (now : Int)
    (row : PendingMessage) (hrow : rowById s mid = some row)
    (hNoDup : (s.messages.map (fun m => m.id)).Nodup) :
    (row.retry_count < MAX_RETRY →
      rowById (markFailed s mid now) mid
        = some { row with
                 status := .pending, retry_count := row.retry_count + 1,
                 started_processing_at_epoch := none })
  ∧ (MAX_RETRY ≤ row.retry_count →
      rowById (markFailed s mid now) mid
        = some { row with status := .failed, failed_at_epoch := some now })
  ∧ ((∀ x ∈ s.messages, x.retry_count ≤ MAX_RETRY) →
      ∀ x ∈ (markFailed s mid now).messages, x.retry_count ≤ MAX_RETRY)
  ∧ (∀ sid now2 m s2, claimNextPending s sid now2 = (some m, s2) → m.status = .pending)
  ∧ (let st3 := failRoundOnce (failRoundOnce (failRoundOnce oneItemQueue 1 0) 1 0) 1 0
     st3.messages.map (fun m => (m.status, m.retry_count)) = [(.pending, 3)]
       ∧ (failRoundOnce st3 1 0).messages.map (fun m => (m.status, m.retry_count))
           = [(.failed, 3)]
       ∧ (claimNextPending (failRoundOnce st3 1 0) 1 0).1 = none) := by
  have hrow2 : s.messages.find? (fun m => m.id == mid) = some row := hrow
  have hmem : row ∈ s.messages := List.mem_of_find?_eq_some hrow2
  have hpred : (row.id == mid) = true := by
    have := List.find?_some hrow2
    simpa using this
  have hid : row.id = mid := by simpa using hpred
  refine ⟨?_, ?_, ?_, ?_, ?_⟩
  · intro hlt
    unfold markFailed
    rw [show s.messages.find? (fun m => m.id == mid) = some row from hrow]
    simp only [hlt, if_true]
    unfold rowById
    rw [find?_id_map]
    · rw [show s.messages.find? (fun m => m.id == mid) = some row from hrow]
      simp [hid]
    · intro x; by_cases hx : (x.id == mid) = true <;> simp [hx]
  · intro hge
    have hnlt : ¬ row.retry_count < MAX_RETRY := Nat.not_lt.mpr hge
    unfold markFailed
    rw [show s.messages.find? (fun m => m.id == mid) = some row from hrow]
    simp only [hnlt, if_false]
    unfold rowById
    rw [find?_id_map]
    · rw [show s.messages.find? (fun m => m.id == mid) = some row from hrow]
      simp [hid]
    · intro x; by_cases hx : (x.id == mid) = true <;> simp [hx]
  · intro hcap x hx
    unfold markFailed at hx
    rw [show s.messages.find? (fun m => m.id == mid) = some row from hrow] at hx
    by_cases hlt : row.retry_count < MAX_RETRY
    · simp only [hlt, if_true] at hx
      obtain ⟨y, hy, hyx⟩ := List.mem_map.mp hx
      by_cases hyid : (y.id == mid) = true
      · have hyrow : y = row := nodup_id_unique hNoDup hy hmem (by
          have : y.id = mid := by simpa using hyid
          rw [this, hid])
        subst hyrow
        simp only [hyid, if_true] at hyx
        subst hyx
        simpa using Nat.succ_le_of_lt hlt
      · rw [if_neg (by simpa using hyid)] at hyx
        subst hyx
        exact hcap y hy
    · simp only [hlt, if_false] at hx
      obtain ⟨y, hy, hyx⟩ := List.mem_map.mp hx
      by_cases hyid : (y.id == mid) = true
      · simp only [hyid, if_true] at hyx
        subst hyx
        simpa using hcap y hy
      · rw [if_neg (by simpa using hyid)] at hyx
        subst hyx
        exact hcap y hy
  · intro sid now2 m s2 hclaim
    exact (claimNextPending_some hclaim).2.2.1
  · exact ⟨by decide, by decide, by decide⟩

/-- Claim C2 witness: the retry semantics applied at the single-item queue. -/
theorem mark_failed_retry_semantics_witness :
    ∃ row, rowById oneItemQueue 1 = some row
      ∧ (oneItemQueue.messages.map (fun m => m.id)).Nodup
      ∧ row.retry_count < MAX_RETRY
      ∧ rowById (markFailed oneItemQueue 1 5) 1
          = some { row with
                   status := .pending, retry_count := row.retry_count + 1,
                   started_processing_at_epoch := none } := by
  refine ⟨⟨1, 1, "s1", .observation, none, some "Run", some "{}", some "{}",
    some "/tmp", none, some 1, .pending, 0, 0, none, none, none⟩,
    by decide, by decide, by decide, ?_⟩
  exact ((mark_failed_retry_semantics oneItemQueue 1 5 _ (by decide) (by decide)).1) (by decide)

/-- Claim C3: for a session with at least one pending queue item, the atomic
    select-and-flip of `claimNextPending` returns a pending item of that session
    with the smallest id (creation order), rewrites the table so that exactly
    the rows carrying that id are flipped to processing with the claim time
    stamped (every other row is kept unchanged), and a subsequent claim can
    never return the same item again; with no pending item it returns none and
    leaves the state untouched.  The transaction of the source is modelled as
    this single state transition. -/
theorem claim_next_oldest_pending (s : StoreState) (sid : Nat) (now now2 : Int) :
    ((∃ x ∈ s.messages, x.session_db_id = sid ∧ x.status = .pending) →
      ∃ m s2, claimNextPending s sid now = (some m, s2)
        ∧ m ∈ s.messages ∧ m.session_db_id = sid ∧ m.status = .pending
        ∧ (∀ x ∈ s.messages, x.session_db_id = sid → x.status = .pending → m.id ≤ x.id)
        ∧ s2.messages = s.messages.map (fun x =>
            if x.id == m.id then
              { x with status := .processing, started_processing_at_epoch := some now }
            else x)
        ∧ (∀ x ∈ s.messages, x.id ≠ m.id → x ∈ s2.messages)
        ∧ (∀ m2 s3, claimNextPending s2 sid now2 = (some m2, s3) → m2.id ≠ m.id))
  ∧ ((∀ x ∈ s.messages, ¬(x.session_db_id = sid ∧ x.status = .pending)) →
      claimNextPending s sid now = (none, s)) := by
  constructor
  · rintro ⟨x0, hx0, hx0s, hx0p⟩
    rcases hr : claimNextPending s sid now with ⟨res, s2⟩
    cases res with
    | none =>
      have hnone := claimNextPending_none (by rw [hr])
      exact absurd ⟨hx0s, hx0p⟩ (hnone.2 x0 hx0)
    | some m =>
      obtain ⟨hmem, hsid, hpend, hmin, hmsg⟩ := claimNextPending_some hr
      refine ⟨m, s2, rfl, hmem, hsid, hpend, hmin, hmsg, ?_, ?_⟩
      · intro x hx hne
        rw [hmsg]
        have : (if (x.id == m.id) = true then
            { x with status := .processing, started_processing_at_epoch := some now }
          else x) = x := by
          rw [if_neg]
          simpa using hne
        exact this ▸ List.mem_map_of_mem _ hx
      · intro m2 s3 h2 heq
        obtain ⟨hmem2, _, hpend2, _, _⟩ := claimNextPending_some h2
        rw [hmsg] at hmem2
        obtain ⟨y, hy, hyx⟩ := List.mem_map.mp hmem2
        by_cases hyid : (y.id == m.id) = true
        · rw [if_pos hyid] at hyx
          rw [← hyx] at hpend2
          cases hpend2
        · rw [if_neg hyid] at hyx
          subst hyx
          exact absurd (by simpa using heq) (by simpa using hyid)
  · intro hno
    have hnil : s.messages.filter (fun x =>
        x.session_db_id == sid && x.status == MsgStatus.pending) = [] := by
      rw [List.filter_eq_nil_iff]
      intro x hx
      have := hno x hx
      simp only [Bool.and_eq_true, beq_iff_eq]
      tauto
    simp only [claimNextPending, hnil]
    rfl

/-- Claim C3 witness: the oldest-pending claim at a concrete one-item queue. -/
theorem claim_next_oldest_pending_witness :
    (∃ x ∈ oneItemQueue.messages, x.session_db_id = 1 ∧ x.status = .pending)
      ∧ ∃ m s2, claimNextPending oneItemQueue 1 9 = (some m, s2)
          ∧ m ∈ oneItemQueue.messages ∧ m.session_db_id = 1 ∧ m.status = .pending := by
  have hex : ∃ x ∈ oneItemQueue.messages, x.session_db_id = 1 ∧ x.status = .pending := by
    refine ⟨⟨1, 1, "s1", .observation, none, some "Run", some "{}", some "{}",
      some "/tmp", none, some 1, .pending, 0, 0, none, none, none⟩, by decide, by decide⟩
  refine ⟨hex, ?_⟩
  obtain ⟨m, s2, h1, h2, h3, h4, _⟩ := (claim_next_oldest_pending oneItemQueue 1 9 0).1 hex
  exact ⟨m, s2, h1, h2, h3, h4⟩

/-- find? skips a prefix in which nothing matches. -/
theorem find?_append_none {p : α → Bool} {l1 l2 : List α} (h : l1.find? p = none) :
    (l1 ++ l2).find? p = l2.find? p := by
  induction l1 with
  | nil => rfl
  | cons a t ih =>
    rw [List.find?_cons] at h
    cases hp : p a with
    | true => rw [hp] at h; cases h
    | false =>
      rw [hp] at h
      rw [List.cons_append, List.find?_cons, hp]
      exact ih h

/-- Claim C1: enqueueing the same logical observation twice — same session,
    kind, and dedupe key — on a store whose ledger and queue do not yet hold
    the key: the first call records the ledger entry and the queue item in one
    state transition (the source transaction) and reports `deduped := false`;
    the second call leaves the store completely unchanged and reports
    `deduped := true` with the same reference id; the session's pending count
    rises by exactly one over both calls, and exactly one queue item with that
    key is stored. -/
theorem enqueue_dedupe_idempotent (s : StoreState) (sid : Nat) (cid : String)
    (pay : ObservationPayload) (key : String) (now1 now2 : Int)
    (hkey : pay.dedupe_key = some key)
    (hledger : ∀ e ∈ s.dedupe,
      ¬(e.session_db_id = sid ∧ e.message_type = MessageType.observation
          ∧ e.dedupe_key = key))
    (hqueue : ∀ m ∈ s.messages,
      ¬(m.session_db_id = sid ∧ m.message_type = MessageType.observation
          ∧ m.dedupe_key = some key)) :
    (enqueueObservation s sid cid pay now1).1 = ⟨s.nextMessageId, false⟩
      ∧ (enqueueObservation (enqueueObservation s sid cid pay now1).2 sid cid pay now2).1
          = ⟨s.nextMessageId, true⟩
      ∧ (enqueueObservation (enqueueObservation s sid cid pay now1).2 sid cid pay now2).2
          = (enqueueObservation s sid cid pay now1).2
      ∧ getPendingCount (enqueueObservation s sid cid pay now1).2 sid
          = getPendingCount s sid + 1
      ∧ ((enqueueObservation s sid cid pay now1).2.messages.filter (fun m =>
            m.session_db_id == sid && m.message_type == MessageType.observation
              && m.dedupe_key == some key)).length = 1
      ∧ (∃ e ∈ (enqueueObservation s sid cid pay now1).2.dedupe,
          e.session_db_id = sid ∧ e.message_type = MessageType.observation
            ∧ e.dedupe_key = key) := by
  have hany : s.dedupe.any (fun e =>
      e.session_db_id == sid && e.message_type == MessageType.observation
        && e.dedupe_key == key) = false := by
    rw [List.any_eq_false]
    intro e he
    have h := hledger e he
    simp only [Bool.and_eq_true, beq_iff_eq, not_and] at h ⊢
    tauto
  have hfnil : s.messages.filter (fun m =>
      m.session_db_id == sid && m.message_type == MessageType.observation
        && m.dedupe_key == some key) = [] := by
    rw [List.filter_eq_nil_iff]
    intro m hm
    have h := hqueue m hm
    simp only [Bool.and_eq_true, beq_iff_eq]
    tauto
  have hfind : s.messages.find? (fun m =>
      m.session_db_id == sid && m.message_type == MessageType.observation
        && m.dedupe_key == some key) = none := by
    rw [List.find?_eq_none]
    intro m hm
    have h := hqueue m hm
    simp only [Bool.and_eq_true, beq_iff_eq, not_and]
    tauto
  have h1 : enqueueObservation s sid cid pay now1
      = (⟨s.nextMessageId, false⟩,
        { s with
          dedupe := s.dedupe ++ [⟨sid, .observation, key, now1⟩],
          messages := s.messages ++
            [⟨s.nextMessageId, sid, cid, .observation, some key,
              some pay.tool_name, some pay.tool_input, some pay.tool_response,
              some pay.cwd, none, some pay.prompt_number, .pending, 0, now1,
              none, none, none⟩],
          nextMessageId := s.nextMessageId + 1 }) := by
    rw [enqueueObservation, hkey]
    simp [hany]
  have hany2 : (s.dedupe ++ [(⟨sid, .observation, key, now1⟩ : DedupeEntry)]).any (fun e =>
      e.session_db_id == sid && e.message_type == MessageType.observation
        && e.dedupe_key == key) = true := by
    rw [List.any_append]
    simp
  have h2 : enqueueObservation (enqueueObservation s sid cid pay now1).2 sid cid pay now2
      = (⟨s.nextMessageId, true⟩, (enqueueObservation s sid cid pay now1).2) := by
    rw [h1]
    rw [enqueueObservation, hkey]
    simp only [hany2, if_true]
    rw [find?_append_none hfind]
    simp
  refine ⟨by rw [h1], by rw [h2], by rw [h2], ?_, ?_, ?_⟩
  · rw [h1]
    simp only [getPendingCount, List.filter_append, List.length_append]
    simp
  · rw [h1]
    simp only [List.filter_append, hfnil, List.length_append]
    simp
  · rw [h1]
    exact ⟨⟨sid, .observation, key, now1⟩, by simp, rfl, rfl, rfl⟩

/-- Claim C1 witness: the enqueue-twice scenario at the empty store with
    dedupe key "k1". -/
theorem enqueue_dedupe_idempotent_witness :
    payK1.dedupe_key = some "k1"
      ∧ (enqueueObservation emptyStore 1 "s1" payK1 100).1 = ⟨1, false⟩
      ∧ (enqueueObservation (enqueueObservation emptyStore 1 "s1" payK1 100).2
          1 "s1" payK1 200).1 = ⟨1, true⟩
      ∧ getPendingCount (enqueueObservation emptyStore 1 "s1" payK1 100).2 1 = 1 := by
  have h := enqueue_dedupe_idempotent emptyStore 1 "s1" payK1 "k1" 100 200
    (by decide) (by intro e he; cases he) (by intro m hm; cases hm)
  exact ⟨by decide, h.1, h.2.1, by rw [h.2.2.2.1]; decide⟩

/-- Sorting descending is a permutation: membership is preserved. -/
theorem mem_sortDescBy {x : α} {key : α → Int} {l : List α} :
    x ∈ sortDescBy key l ↔ x ∈ l :=
  (List.perm_insertionSort _ l).mem_iff

/-- Sorting ascending is a permutation: membership is preserved. -/
theorem mem_sortAscBy {x : α} {key : α → Int} {l : List α} :
    x ∈ sortAscBy key l ↔ x ∈ l :=
  (List.perm_insertionSort _ l).mem_iff

/-- A paged result only contains rows of the underlying query result. -/
theorem mem_of_mem_pageRows {x : α} {dateAsc : Bool} {off lim : Nat} {key : α → Int}
    {rows : List α} (h : x ∈ pageRows dateAsc off lim key rows) : x ∈ rows := by
  unfold pageRows at h
  have h1 := List.mem_of_mem_drop (List.mem_of_mem_take h)
  cases dateAsc with
  | true => exact mem_sortAscBy.mp (by simpa using h1)
  | false => exact mem_sortDescBy.mp (by simpa using h1)

/-- A LIMIT-truncated result only contains rows of the underlying result. -/
theorem mem_of_mem_applyLimitTruthy {x : α} {lim : Option Nat} {l : List α}
    (h : x ∈ applyLimitTruthy lim l) : x ∈ l := by
  cases lim with
  | none => simpa [applyLimitTruthy] using h
  | some k =>
    simp only [applyLimitTruthy] at h
    by_cases hk : k = 0
    · rw [if_pos hk] at h; exact h
    · rw [if_neg hk] at h; exact List.mem_of_mem_take h

/-- Claim C6 (amended): a row with non-null deletedAt is excluded from the
    lexical search, the listings, and the by-id and by-ids fetches of its
    table (the timeline anchor lookup is the observation by-id fetch); it is
    retained in the table itself until the hard-delete sweep removes it.  The
    timeline before/after neighbour queries carry no deletedAt filter and are
    therefore not covered (see the counterexample). -/
theorem deleted_rows_hidden (s : StoreState) :
    (∀ r : ObservationRow, r.deleted_at_epoch ≠ none →
      (∀ args, r ∉ (searchStore s args).1)
        ∧ (∀ off lim proj, r ∉ (listObservations s off lim proj).1)
        ∧ (∀ ids o, r ∉ getObservationsByIds s ids o)
        ∧ (∀ i, getObservationById s i ≠ some r))
  ∧ (∀ r : SummaryRow, r.deleted_at_epoch ≠ none →
      (∀ args, r ∉ (searchStore s args).2.1)
        ∧ (∀ off lim proj, r ∉ (listSummaries s off lim proj).1)
        ∧ (∀ ids o, r ∉ getSummariesByIds s ids o))
  ∧ (∀ r : PromptRow, r.deleted_at_epoch ≠ none →
      (∀ args, r ∉ (searchStore s args).2.2)
        ∧ (∀ off lim proj, r ∉ (listPrompts s off lim proj).1)
        ∧ (∀ ids o, r ∉ getPromptsByIds s ids o)) := by
  refine ⟨?_, ?_, ?_⟩
  · intro r hdel
    refine ⟨?_, ?_, ?_, ?_⟩
    · intro args hmem
      simp only [searchStore] at hmem
      by_cases hinc : args.includeObservations
      · rw [if_pos hinc] at hmem
        have h2 := (List.mem_filter.mp (mem_of_mem_pageRows hmem)).2
        simp only [Bool.and_eq_true, beq_iff_eq] at h2
        exact hdel h2.1.1.1.1.1
      · rw [if_neg hinc] at hmem; cases hmem
    · intro off lim proj hmem
      simp only [listObservations] at hmem
      have h1 := mem_sortDescBy.mp (List.mem_of_mem_drop (List.mem_of_mem_take hmem))
      have h2 := (List.mem_filter.mp h1).2
      simp only [Bool.and_eq_true, beq_iff_eq] at h2
      exact hdel h2.1
    · intro ids o hmem
      simp only [getObservationsByIds] at hmem
      by_cases hids : ids.isEmpty
      · rw [if_pos hids] at hmem; cases hmem
      · rw [if_neg hids] at hmem
        have h1 := mem_of_mem_applyLimitTruthy hmem
        have h2 : r ∈ s.observations.filter (obsPassesByIds s ids o) := by
          by_cases hasc : o.dateAsc
          · rw [if_pos hasc] at h1; exact mem_sortAscBy.mp h1
          · rw [if_neg hasc] at h1; exact mem_sortDescBy.mp h1
        have h3 := (List.mem_filter.mp h2).2
        simp only [obsPassesByIds, Bool.and_eq_true, beq_iff_eq] at h3
        exact hdel h3.1.1.1.1.2
    · intro i hfind
      have hfind2 : s.observations.find? (fun x =>
          x.id == i && x.deleted_at_epoch == none) = some r := hfind
      have hp := List.find?_some hfind2
      simp only [Bool.and_eq_true, beq_iff_eq] at hp
      exact hdel hp.2
  · intro r hdel
    refine ⟨?_, ?_, ?_⟩
    · intro args hmem
      simp only [searchStore] at hmem
      by_cases hinc : args.includeSessions
      · rw [if_pos hinc] at hmem
        have h2 := (List.mem_filter.mp (mem_of_mem_pageRows hmem)).2
        simp only [Bool.and_eq_true, beq_iff_eq] at h2
        exact hdel h2.1.1.1.1
      · rw [if_neg hinc] at hmem; cases hmem
    · intro off lim proj hmem
      simp only [listSummaries] at hmem
      have h1 := mem_sortDescBy.mp (List.mem_of_mem_drop (List.mem_of_mem_take hmem))
      have h2 := (List.mem_filter.mp h1).2
      simp only [Bool.and_eq_true, beq_iff_eq] at h2
      exact hdel h2.1
    · intro ids o hmem
      simp only [getSummariesByIds] at hmem
      by_cases hids : ids.isEmpty
      · rw [if_pos hids] at hmem; cases hmem
      · rw [if_neg hids] at hmem
        have h1 := mem_of_mem_applyLimitTruthy hmem
        have h2 : r ∈ s.summaries.filter (sumPassesByIds s ids o) := by
          by_cases hasc : o.dateAsc
          · rw [if_pos hasc] at h1; exact mem_sortAscBy.mp h1
          · rw [if_neg hasc] at h1; exact mem_sortDescBy.mp h1
        have h3 := (List.mem_filter.mp h2).2
        simp only [sumPassesByIds, Bool.and_eq_true, beq_iff_eq] at h3
        exact hdel h3.1.1.1.2
  · intro r hdel
    refine ⟨?_, ?_, ?_⟩
    · intro args hmem
      simp only [searchStore] at hmem
      by_cases hinc : args.includePrompts
      · rw [if_pos hinc] at hmem
        have h2 := (List.mem_filter.mp (mem_of_mem_pageRows hmem)).2
        simp only [Bool.and_eq_true, beq_iff_eq] at h2
        exact hdel h2.1.1.1.1
      · rw [if_neg hinc] at hmem; cases hmem
    · intro off lim proj hmem
      simp only [listPrompts] at hmem
      have h1 := mem_sortDescBy.mp (List.mem_of_mem_drop (List.mem_of_mem_take hmem))
      have h2 := (List.mem_filter.mp h1).2
      simp only [Bool.and_eq_true, beq_iff_eq] at h2
      exact hdel h2.1
    · intro ids o hmem
      simp only [getPromptsByIds] at hmem
      by_cases hids : ids.isEmpty
      · rw [if_pos hids] at hmem; cases hmem
      · rw [if_neg hids] at hmem
        have h1 := mem_of_mem_applyLimitTruthy hmem
        have h2 : r ∈ s.user_prompts.filter (promptPassesByIds s ids o) := by
          by_cases hasc : o.dateAsc
          · rw [if_pos hasc] at h1; exact mem_sortAscBy.mp h1
          · rw [if_neg hasc] at h1; exact mem_sortDescBy.mp h1
        have h3 := (List.mem_filter.mp h2).2
        simp only [promptPassesByIds, Bool.and_eq_true, beq_iff_eq] at h3
        exact hdel h3.1.1.1.2

/-- Claim C6 witness: the soft-deleted observation of the timeline store is
    invisible to the default search. -/
theorem deleted_rows_hidden_witness :
    deletedObs.deleted_at_epoch ≠ none
      ∧ deletedObs ∉ (searchStore timelineStore {}).1 := by
  refine ⟨by decide, ?_⟩
  exact (((deleted_rows_hidden timelineStore).1 deletedObs (by decide)).1) {}

/-- Shape of `createSDKSession` on an unseen external id. -/
theorem createSDKSession_fresh (s : StoreState) {cid : String}
    (h : getSessionByContentSessionId s cid = none) (proj prompt : String) (now : Int) :
    ∃ a, createSDKSession s cid proj prompt now
      = (s.nextSessionId,
        { s with
          sessions := s.sessions ++
            [⟨s.nextSessionId, cid, none, proj, some prompt, now, "active"⟩],
          nextSessionId := s.nextSessionId + 1,
          activity := a }) := by
  obtain ⟨a, ha⟩ := touchProjectActivity_eq
    { s with
      sessions := s.sessions ++
        [⟨s.nextSessionId, cid, none, proj, some prompt, now, "active"⟩],
      nextSessionId := s.nextSessionId + 1 } [proj] now
  refine ⟨a, ?_⟩
  simp only [createSDKSession, h, ha]

/-- Shape of `createSDKSession` on an already-registered external id with a
    non-empty project. -/
theorem createSDKSession_existing (s : StoreState) {cid : String} {sess : SessionRow}
    (h : getSessionByContentSessionId s cid = some sess) (proj prompt : String)
    (now : Int) (hproj : proj ≠ "") :
    createSDKSession s cid proj prompt now
      = (sess.id,
        { s with sessions := s.sessions.map (fun r =>
            if r.content_session_id == cid && r.project == "" then
              { r with project := proj }
            else r) }) := by
  simp only [createSDKSession, h]
  simp [hproj]

/-- Shape of `saveUserPrompt`: the prompt row is appended; only the activity
    table may otherwise change. -/
theorem saveUserPrompt_eq (s : StoreState) (cid : String) (n : Nat) (txt : String)
    (now : Int) :
    ∃ a, saveUserPrompt s cid n txt now
      = (s.nextPromptId,
        { s with
          user_prompts := s.user_prompts ++ [⟨s.nextPromptId, cid, n, txt, now, some now, none⟩],
          nextPromptId := s.nextPromptId + 1,
          activity := a }) := by
  cases h : getSessionByContentSessionId
      { s with
        user_prompts := s.user_prompts ++ [⟨s.nextPromptId, cid, n, txt, now, some now, none⟩],
        nextPromptId := s.nextPromptId + 1 } cid with
  | none => exact ⟨s.activity, by simp only [saveUserPrompt, h]⟩
  | some sess =>
    by_cases hp : sess.project ≠ ""
    · obtain ⟨a, ha⟩ := touchProjectActivity_eq
        { s with
          user_prompts := s.user_prompts ++ [⟨s.nextPromptId, cid, n, txt, now, some now, none⟩],
          nextPromptId := s.nextPromptId + 1 } [sess.project] now
      refine ⟨a, ?_⟩
      simp only [saveUserPrompt, h, ha]
      rw [if_pos hp]
    · refine ⟨s.activity, ?_⟩
      simp only [saveUserPrompt, h]
      rw [if_neg hp]

/-- A filter whose predicate is invariant under the mapped function counts the
    same rows. -/
theorem length_filter_map_inv (g : α → α) (p : α → Bool) (hg : ∀ r, p (g r) = p r)
    (l : List α) : ((l.map g).filter p).length = (l.filter p).length := by
  induction l with
  | nil => rfl
  | cons a t ih =>
    rw [List.map_cons, List.filter_cons, List.filter_cons, hg a]
    cases hp : p a
    · simpa using ih
    · simpa using ih

/-- Fully-applied shape of `sessionsInit` on valid inputs and a non-private
    prompt: the else-else path of the handler. -/
theorem sessionsInit_eq (srv : ServerState) (cid proj prompt : String) (now : Int)
    (hbcond : (cid == "" || proj == "") = false)
    (hbclean : (trimString (stripMemoryTagsFromPrompt prompt) == "") = false) :
    sessionsInit srv cid proj prompt now
      = (.ok ⟨(createSDKSession srv.store cid proj prompt now).1,
            getPromptNumberFromUserPrompts
              (createSDKSession srv.store cid proj prompt now).2 cid + 1,
            false, none⟩,
        ⟨(saveUserPrompt (createSDKSession srv.store cid proj prompt now).2 cid
            (getPromptNumberFromUserPrompts
              (createSDKSession srv.store cid proj prompt now).2 cid + 1)
            (stripMemoryTagsFromPrompt prompt) now).2,
          if srv.active.contains (createSDKSession srv.store cid proj prompt now).1
          then srv.active
          else srv.active ++ [(createSDKSession srv.store cid proj prompt now).1]⟩) := by
  simp only [sessionsInit, hbcond, Bool.false_eq_true, if_false, hbclean]

/-- Claim C7 (amended): calling session init twice with the same
    contentSessionId, project and non-private prompt returns the same
    sessionDbId both times and does not duplicate the session row; but the
    prompt number is computed as existing-prompt-count + 1 on every call, so
    the duplicate call returns promptNumber 2 and inserts a second prompt row
    (the duplicate prompt is not detected). -/
theorem init_repeat_prompt_number (srv : ServerState) (cid proj prompt : String)
    (now1 now2 : Int) (hcid : cid ≠ "") (hproj : proj ≠ "")
    (hfresh : ∀ r ∈ srv.store.sessions, r.content_session_id ≠ cid)
    (hnopr : ∀ p ∈ srv.store.user_prompts, p.content_session_id ≠ cid)
    (hclean : trimString (stripMemoryTagsFromPrompt prompt) ≠ "") :
    (sessionsInit srv cid proj prompt now1).1
        = .ok ⟨srv.store.nextSessionId, 1, false, none⟩
      ∧ (sessionsInit (sessionsInit srv cid proj prompt now1).2 cid proj prompt now2).1
          = .ok ⟨srv.store.nextSessionId, 2, false, none⟩
      ∧ sessionCountFor
          (sessionsInit (sessionsInit srv cid proj prompt now1).2 cid proj prompt now2).2.store
          cid = 1
      ∧ getPromptNumberFromUserPrompts
          (sessionsInit (sessionsInit srv cid proj prompt now1).2 cid proj prompt now2).2.store
          cid = 2 := by
  have hb1 : (cid == "") = false := by simpa using hcid
  have hb2 : (proj == "") = false := by simpa using hproj
  have hbcond : (cid == "" || proj == "") = false := by rw [hb1, hb2]; rfl
  have hbclean : (trimString (stripMemoryTagsFromPrompt prompt) == "") = false := by
    simpa using hclean
  have hnone : getSessionByContentSessionId srv.store cid = none := by
    unfold getSessionByContentSessionId
    rw [List.find?_eq_none]
    intro r hr
    simpa using hfresh r hr
  obtain ⟨a1, hc1⟩ := createSDKSession_fresh srv.store hnone proj prompt now1
  have hcount1 : getPromptNumberFromUserPrompts
      (createSDKSession srv.store cid proj prompt now1).2 cid = 0 := by
    rw [hc1]
    show (srv.store.user_prompts.filter (fun p => p.content_session_id == cid)).length = 0
    rw [List.filter_eq_nil_iff.mpr (fun p hp => by simpa using hnopr p hp)]
    rfl
  obtain ⟨a2, hs1⟩ := saveUserPrompt_eq
    (createSDKSession srv.store cid proj prompt now1).2
    cid 1 (stripMemoryTagsFromPrompt prompt) now1
  have hinit1 := sessionsInit_eq srv cid proj prompt now1 hbcond hbclean
  have hstore1 : (sessionsInit srv cid proj prompt now1).2.store
      = (saveUserPrompt (createSDKSession srv.store cid proj prompt now1).2 cid 1
          (stripMemoryTagsFromPrompt prompt) now1).2 := by
    rw [hinit1, hcount1]
  have hup1 : (sessionsInit srv cid proj prompt now1).2.store.user_prompts
      = srv.store.user_prompts ++
        [⟨srv.store.nextPromptId, cid, 1, stripMemoryTagsFromPrompt prompt,
          now1, some now1, none⟩] := by
    rw [hstore1, hs1, hc1]
  have hses1 : (sessionsInit srv cid proj prompt now1).2.store.sessions
      = srv.store.sessions ++
        [⟨srv.store.nextSessionId, cid, none, proj, some prompt, now1, "active"⟩] := by
    rw [hstore1, hs1, hc1]
  have hnext1 : (sessionsInit srv cid proj prompt now1).2.store.nextPromptId
      = srv.store.nextPromptId + 1 := by
    rw [hstore1, hs1, hc1]
  have hsome2 : getSessionByContentSessionId
      (sessionsInit srv cid proj prompt now1).2.store cid
      = some ⟨srv.store.nextSessionId, cid, none, proj, some prompt, now1, "active"⟩ := by
    unfold getSessionByContentSessionId
    rw [hses1]
    rw [find?_append_none (List.find?_eq_none.mpr (fun r hr => by simpa using hfresh r hr))]
    simp
  have hc2 := createSDKSession_existing
    (sessionsInit srv cid proj prompt now1).2.store hsome2 proj prompt now2 hproj
  have hcount2 : getPromptNumberFromUserPrompts
      (createSDKSession (sessionsInit srv cid proj prompt now1).2.store
        cid proj prompt now2).2 cid = 1 := by
    rw [hc2]
    show ((sessionsInit srv cid proj prompt now1).2.store.user_prompts.filter
      (fun p => p.content_session_id == cid)).length = 1
    rw [hup1, List.filter_append,
      List.filter_eq_nil_iff.mpr (fun p hp => by simpa using hnopr p hp)]
    simp
  obtain ⟨a3, hs2⟩ := saveUserPrompt_eq
    (createSDKSession (sessionsInit srv cid proj prompt now1).2.store
      cid proj prompt now2).2
    cid 2 (stripMemoryTagsFromPrompt prompt) now2
  have hinit2 := sessionsInit_eq (sessionsInit srv cid proj prompt now1).2
    cid proj prompt now2 hbcond hbclean
  have hstore2 : (sessionsInit (sessionsInit srv cid proj prompt now1).2
      cid proj prompt now2).2.store
      = (saveUserPrompt (createSDKSession (sessionsInit srv cid proj prompt now1).2.store
          cid proj prompt now2).2 cid 2 (stripMemoryTagsFromPrompt prompt) now2).2 := by
    rw [hinit2, hcount2]
  refine ⟨?_, ?_, ?_, ?_⟩
  · rw [hinit1, hcount1, hc1]
  · rw [hinit2, hcount2, hc2]
  · rw [hstore2, hs2, hc2]
    show (((sessionsInit srv cid proj prompt now1).2.store.sessions.map (fun r =>
      if r.content_session_id == cid && r.project == "" then { r with project := proj }
      else r)).filter (fun r => r.content_session_id == cid)).length = 1
    have hg : ∀ r : SessionRow,
        ((if r.content_session_id == cid && r.project == "" then
            { r with project := proj } else r).content_session_id == cid)
          = (r.content_session_id == cid) := by
      intro r
      by_cases hr : (r.content_session_id == cid && r.project == "") = true
      · rw [if_pos hr]
      · rw [if_neg hr]
    rw [length_filter_map_inv _ _ hg]
    rw [hses1, List.filter_append,
      List.filter_eq_nil_iff.mpr (fun r hr => by simpa using hfresh r hr)]
    simp
  · rw [hstore2, hs2, hc2]
    show (((sessionsInit srv cid proj prompt now1).2.store.user_prompts ++
      [(⟨(sessionsInit srv cid proj prompt now1).2.store.nextPromptId, cid, 2,
        stripMemoryTagsFromPrompt prompt, now2, some now2, none⟩ : PromptRow)]).filter
        (fun p => p.content_session_id == cid)).length = 2
    rw [hup1, hnext1, List.filter_append, List.filter_append,
      List.filter_eq_nil_iff.mpr (fun p hp => by simpa using hnopr p hp)]
    simp

/-- Claim C7 witness: the duplicate-init behaviour at the empty worker. -/
theorem init_repeat_prompt_number_witness :
    ("s1" ≠ "") ∧ ("p" ≠ "")
      ∧ trimString (stripMemoryTagsFromPrompt "hello") ≠ ""
      ∧ (sessionsInit emptyServer "s1" "p" "hello" 3).1 = .ok ⟨1, 1, false, none⟩
      ∧ (sessionsInit (sessionsInit emptyServer "s1" "p" "hello" 3).2
          "s1" "p" "hello" 4).1 = .ok ⟨1, 2, false, none⟩ := by
  have h := init_repeat_prompt_number emptyServer "s1" "p" "hello" 3 4 (by decide)
    (by decide) (fun r hr => by cases hr) (fun p hp => by cases hp) (by decide)
  exact ⟨by decide, by decide, by decide, h.1, h.2.1⟩

/-- Accumulator equation for the merge loop: it emits the first-seen
    deduplication of the remaining rows, truncated to the space left under the
    limit. -/
theorem mergeRowsWithPriorityAux_eq (getId : α → Nat) (lim : Nat) :
    ∀ (xs : List α) (seen : List Nat) (acc : List α), acc.length < lim →
      mergeRowsWithPriorityAux getId lim seen acc xs
        = acc.reverse ++ (dedupKeepFirstByAux getId seen xs).take (lim - acc.length)
  | [], seen, acc, hacc => by
    simp [mergeRowsWithPriorityAux, dedupKeepFirstByAux]
  | x :: rest, seen, acc, hacc => by
    rw [mergeRowsWithPriorityAux, dedupKeepFirstByAux]
    by_cases hseen : seen.contains (getId x)
    · rw [if_pos hseen, if_pos hseen]
      exact mergeRowsWithPriorityAux_eq getId lim rest seen acc hacc
    · rw [if_neg hseen, if_neg hseen]
      by_cases hfull : lim ≤ (x :: acc).length
      · rw [if_pos hfull]
        have hlen : lim - acc.length = 1 := by
          rw [List.length_cons] at hfull
          omega
        rw [hlen, List.take_succ_cons, List.take_zero, List.reverse_cons]
      · rw [if_neg hfull]
        rw [mergeRowsWithPriorityAux_eq getId lim rest (getId x :: seen) (x :: acc)
          (Nat.lt_of_not_le hfull)]
        have hlen : lim - acc.length = (lim - (x :: acc).length) + 1 := by
          rw [List.length_cons]
          omega
        rw [hlen, List.take_succ_cons, List.reverse_cons, List.append_assoc]
        rfl

/-- `mergeRowsWithPriority` with a positive limit is first-seen id
    deduplication of priority rows then lexical rows, truncated to the limit. -/
theorem mergeRowsWithPriority_eq (getId : α → Nat) (p l : List α) (lim : Nat)
    (hlim : 1 ≤ lim) :
    mergeRowsWithPriority getId p l lim = (dedupKeepFirstBy getId (p ++ l)).take lim := by
  unfold mergeRowsWithPriority dedupKeepFirstBy
  rw [mergeRowsWithPriorityAux_eq getId lim (p ++ l) [] [] (by simpa using hlim)]
  simp

/-- The embedded ORDER BY … DESC really sorts descending. -/
theorem sortDescBy_sorted (key : α → Int) (l : List α) :
    (sortDescBy key l).Sorted (fun a b => key b ≤ key a) := by
  haveI h1 : IsTotal α (fun a b => key b ≤ key a) := ⟨fun a b => le_total (key b) (key a)⟩
  haveI h2 : IsTrans α (fun a b => key b ≤ key a) := ⟨fun a b c hab hbc => le_trans hbc hab⟩
  exact List.sorted_insertionSort _ l

/-- The date-descending hydration query returns a descending-by-created-date
    list. -/
theorem getObservationsByIds_sorted (s : StoreState) (ids : List Nat)
    (o : ByIdsOptions) (hdesc : o.dateAsc = false) :
    (getObservationsByIds s ids o).Sorted
      (fun a b => b.created_at_epoch ≤ a.created_at_epoch) := by
  unfold getObservationsByIds
  by_cases hids : ids.isEmpty
  · rw [if_pos hids]; exact List.sorted_nil
  · rw [if_neg hids, hdesc]
    have hs := sortDescBy_sorted (fun r : ObservationRow => r.created_at_epoch)
      (s.observations.filter (obsPassesByIds s ids o))
    simp only [Bool.false_eq_true, if_false]
    cases hlim : o.limit with
    | none => exact hs
    | some k =>
      simp only [applyLimitTruthy]
      by_cases hk : k = 0
      · rw [if_pos hk]; exact hs
      · rw [if_neg hk]
        exact List.Pairwise.sublist (List.take_sublist _ _) hs

/-- Claim C4 (amended): for each entity kind, the hybrid result equals the
    first-seen-id deduplication of the hydrated vector rows followed by the
    lexical rows, truncated to the page limit — but the hydrated vector rows
    are ordered by created date descending (the hydration queries run with
    `orderBy: "date_desc"`), not by vector rank; each hydrated row is a live
    row of its table whose id is among the vector ids. -/
theorem hybrid_merge_date_order (s : StoreState) (vecIds : List Nat)
    (lexO : List ObservationRow) (lexS : List SummaryRow) (lexP : List PromptRow)
    (limit : Nat) (proj : Option String) (types : List String) (ds de : Option Int)
    (hvec : vecIds ≠ []) (hlim : 1 ≤ limit) :
    (hydrateMergeObservations s vecIds lexO limit proj types ds de
        = (dedupKeepFirstBy (fun r => r.id)
            (getObservationsByIds s vecIds ⟨false, some limit, proj, types, ds, de⟩
              ++ lexO)).take limit
      ∧ (getObservationsByIds s vecIds ⟨false, some limit, proj, types, ds, de⟩).Sorted
          (fun a b => b.created_at_epoch ≤ a.created_at_epoch)
      ∧ ∀ r ∈ getObservationsByIds s vecIds ⟨false, some limit, proj, types, ds, de⟩,
          r ∈ s.observations ∧ r.id ∈ vecIds ∧ r.deleted_at_epoch = none)
  ∧ (hydrateMergeSummaries s vecIds lexS limit proj ds de
        = (dedupKeepFirstBy (fun r => r.id)
            (getSummariesByIds s vecIds ⟨false, some limit, proj, [], ds, de⟩
              ++ lexS)).take limit
      ∧ ∀ r ∈ getSummariesByIds s vecIds ⟨false, some limit, proj, [], ds, de⟩,
          r ∈ s.summaries ∧ r.id ∈ vecIds ∧ r.deleted_at_epoch = none)
  ∧ (hydrateMergePrompts s vecIds lexP limit proj ds de
        = (dedupKeepFirstBy (fun r => r.id)
            (getPromptsByIds s vecIds ⟨false, some limit, proj, [], ds, de⟩
              ++ lexP)).take limit
      ∧ ∀ r ∈ getPromptsByIds s vecIds ⟨false, some limit, proj, [], ds, de⟩,
          r ∈ s.user_prompts ∧ r.id ∈ vecIds ∧ r.deleted_at_epoch = none) := by
  have hne : vecIds.isEmpty = false := by
    cases vecIds with
    | nil => exact absurd rfl hvec
    | cons a t => rfl
  refine ⟨⟨?_, ?_, ?_⟩, ⟨?_, ?_⟩, ⟨?_, ?_⟩⟩
  · rw [hydrateMergeObservations, hne]
    simp only [Bool.false_eq_true, if_false]
    exact mergeRowsWithPriority_eq _ _ _ _ hlim
  · exact getObservationsByIds_sorted s vecIds _ rfl
  · intro r hr
    simp only [getObservationsByIds, hne, Bool.false_eq_true, if_false] at hr
    have h1 := mem_of_mem_applyLimitTruthy hr
    have h2 : r ∈ s.observations.filter
        (obsPassesByIds s vecIds ⟨false, some limit, proj, types, ds, de⟩) := by
      exact mem_sortDescBy.mp h1
    have h3 := (List.mem_filter.mp h2).2
    simp only [obsPassesByIds, Bool.and_eq_true, beq_iff_eq] at h3
    refine ⟨(List.mem_filter.mp h2).1, ?_, h3.1.1.1.1.2⟩
    have := h3.1.1.1.1.1
    simpa using this
  · rw [hydrateMergeSummaries, hne]
    simp only [Bool.false_eq_true, if_false]
    exact mergeRowsWithPriority_eq _ _ _ _ hlim
  · intro r hr
    simp only [getSummariesByIds, hne, Bool.false_eq_true, if_false] at hr
    have h1 := mem_of_mem_applyLimitTruthy hr
    have h2 : r ∈ s.summaries.filter
        (sumPassesByIds s vecIds ⟨false, some limit, proj, [], ds, de⟩) := by
      exact mem_sortDescBy.mp h1
    have h3 := (List.mem_filter.mp h2).2
    simp only [sumPassesByIds, Bool.and_eq_true, beq_iff_eq] at h3
    refine ⟨(List.mem_filter.mp h2).1, ?_, h3.1.1.1.2⟩
    have := h3.1.1.1.1
    simpa using this
  · rw [hydrateMergePrompts, hne]
    simp only [Bool.false_eq_true, if_false]
    exact mergeRowsWithPriority_eq _ _ _ _ hlim
  · intro r hr
    simp only [getPromptsByIds, hne, Bool.false_eq_true, if_false] at hr
    have h1 := mem_of_mem_applyLimitTruthy hr
    have h2 : r ∈ s.user_prompts.filter
        (promptPassesByIds s vecIds ⟨false, some limit, proj, [], ds, de⟩) := by
      exact mem_sortDescBy.mp h1
    have h3 := (List.mem_filter.mp h2).2
    simp only [promptPassesByIds, Bool.and_eq_true, beq_iff_eq] at h3
    refine ⟨(List.mem_filter.mp h2).1, ?_, h3.1.1.1.2⟩
    have := h3.1.1.1.1
    simpa using this

/-- Claim C4 witness: the date-ordered hybrid merge at the two-observation
    store. -/
theorem hybrid_merge_date_order_witness :
    ([1, 2] ≠ ([] : List Nat)) ∧ 1 ≤ 20
      ∧ hydrateMergeObservations twoObsStore [1, 2] [] 20 none [] none none
          = (dedupKeepFirstBy (fun r => r.id)
              (getObservationsByIds twoObsStore [1, 2]
                ⟨false, some 20, none, [], none, none⟩ ++ [])).take 20 := by
  exact ⟨by decide, by decide,
    ((hybrid_merge_date_order twoObsStore [1, 2] [] [] [] 20 none [] none none
      (by decide) (by decide)).1).1⟩

/-- `markFailed` rewrites rows in place: it is a map that changes neither ids
    nor session assignment. -/
theorem markFailed_shape (s : StoreState) (mid : Nat) (now : Int) :
    ∃ f, (markFailed s mid now).messages = s.messages.map f
      ∧ ∀ x, (f x).id = x.id ∧ (f x).session_db_id = x.session_db_id := by
  unfold markFailed
  cases hf : s.messages.find? (fun m => m.id == mid) with
  | none => exact ⟨fun x => x, by simp, fun x => ⟨rfl, rfl⟩⟩
  | some row =>
    by_cases h : row.retry_count < MAX_RETRY
    · refine ⟨fun m =>
        if m.id == mid then
          { m with
            status := .pending,
            retry_count := m.retry_count + 1,
            started_processing_at_epoch := none }
        else m, by simp [h], ?_⟩
      intro x
      by_cases hx : (x.id == mid) = true
      · simp [hx]
      · simp [hx]
    · refine ⟨fun m =>
        if m.id == mid then
          { m with
            status := .failed,
            failed_at_epoch := some now }
        else m, by simp [h], ?_⟩
      intro x
      by_cases hx : (x.id == mid) = true
      · simp [hx]
      · simp [hx]

/-- Counting under an id- and session-preserving row update is unchanged. -/
theorem unseenCntL_map (f : PendingMessage → PendingMessage)
    (hf : ∀ x, (f x).id = x.id ∧ (f x).session_db_id = x.session_db_id)
    (l : List PendingMessage) (sid : Nat) (seen : List Nat) :
    unseenCntL (l.map f) sid seen = unseenCntL l sid seen := by
  unfold unseenCntL
  exact length_filter_map_inv f _ (fun r => by rw [(hf r).1, (hf r).2]) l

/-- Fewer candidate rows never increases the measure. -/
theorem unseenCntL_sublist {l1 l2 : List PendingMessage} (h : l1.Sublist l2)
    (sid : Nat) (seen : List Nat) :
    unseenCntL l1 sid seen ≤ unseenCntL l2 sid seen :=
  (h.filter _).length_le

/-- Filtering with a stronger predicate keeps at most as many rows. -/
theorem length_filter_le_of_imp {p q : α → Bool} (l : List α)
    (himp : ∀ x, q x = true → p x = true) :
    (l.filter q).length ≤ (l.filter p).length := by
  induction l with
  | nil => exact Nat.le_refl _
  | cons b t ih =>
    rw [List.filter_cons, List.filter_cons]
    cases hqb : q b with
    | true =>
      rw [himp b hqb]
      simpa using ih
    | false =>
      cases hpb : p b with
      | true => simpa using Nat.le_succ_of_le ih
      | false => simpa using ih

/-- Filtering with a strictly stronger predicate that loses a concrete witness
    keeps strictly fewer rows. -/
theorem length_filter_lt_of_imp {p q : α → Bool} (l : List α)
    (himp : ∀ x, q x = true → p x = true) (a : α) (ha : a ∈ l)
    (hpa : p a = true) (hqa : q a = false) :
    (l.filter q).length < (l.filter p).length := by
  induction l with
  | nil => cases ha
  | cons b t ih =>
    rw [List.filter_cons, List.filter_cons]
    rcases List.mem_cons.mp ha with rfl | hat
    · rw [hpa, hqa]
      simpa using Nat.lt_succ_of_le (length_filter_le_of_imp t himp)
    · cases hqb : q b with
      | true =>
        rw [himp b hqb]
        simpa using ih hat
      | false =>
        cases hpb : p b with
        | true => simpa using Nat.lt_succ_of_le (Nat.le_of_lt (ih hat))
        | false => simpa using ih hat

/-- Marking one unseen row of the session as seen strictly decreases the
    measure. -/
theorem unseenCntL_cons_lt (l : List PendingMessage) (sid : Nat) (seen : List Nat)
    (m : PendingMessage) (hm : m ∈ l) (hsid : m.session_db_id = sid)
    (hnot : seen.contains m.id = false) :
    unseenCntL l sid (m.id :: seen) < unseenCntL l sid seen := by
  unfold unseenCntL
  have himp : ∀ x : PendingMessage,
      (x.session_db_id == sid && !((m.id :: seen).contains x.id)) = true →
      (x.session_db_id == sid && !(seen.contains x.id)) = true := by
    intro x hx
    simp only [Bool.and_eq_true, Bool.not_eq_true', List.contains_cons,
      Bool.or_eq_false_iff] at hx ⊢
    exact ⟨hx.1, hx.2.2⟩
  have hmns : m.id ∉ seen := by
    intro hmem
    have hcon : seen.contains m.id = true := by simpa using hmem
    rw [hnot] at hcon
    cases hcon
  have hpa : (m.session_db_id == sid && !(seen.contains m.id)) = true := by
    simp [hsid, hmns]
  have hqa : (m.session_db_id == sid && !((m.id :: seen).contains m.id)) = false := by
    simp [List.contains_cons]
  exact length_filter_lt_of_imp l himp m hm hpa hqa

/-- One drain pass reaches a break condition once the fuel exceeds the number
    of unseen session rows. -/
theorem processSessionQueueAux_completes (env : DrainEnv) (sid : Nat) (now : Int) :
    ∀ (fuel : Nat) (st : StoreState) (seen invoked : List Nat),
      unseenCntL st.messages sid seen < fuel →
      (processSessionQueueAux env sid now fuel st seen invoked).2.2 = true := by
  intro fuel
  induction fuel with
  | zero => intro st seen invoked h; omega
  | succ n ih =>
    intro st seen invoked hcnt
    simp only [processSessionQueueAux]
    cases hclaim : claimNextPending st sid now with
    | mk res st1 =>
    cases res with
    | none => rfl
    | some m =>
      dsimp only
      obtain ⟨hmem, hsid, hpend, hmin, hmsg⟩ := claimNextPending_some hclaim
      by_cases hseen : seen.contains m.id
      · rw [if_pos hseen]
      · rw [if_neg hseen]
        have hnotb : seen.contains m.id = false := by
          cases h : seen.contains m.id
          · rfl
          · exact absurd h hseen
        have hlt1 : unseenCntL st1.messages sid (m.id :: seen)
            < unseenCntL st.messages sid seen := by
          rw [hmsg, unseenCntL_map]
          · exact unseenCntL_cons_lt st.messages sid seen m hmem hsid hnotb
          · intro x
            by_cases hx : (x.id == m.id) = true
            · rw [if_pos hx]; exact ⟨rfl, rfl⟩
            · rw [if_neg hx]; exact ⟨rfl, rfl⟩
        have hlt2 : unseenCntL st1.messages sid (m.id :: seen) < n := by omega
        cases hsess : getSessionById st1 m.session_db_id with
        | none =>
          apply ih
          obtain ⟨f, hmf, hf⟩ := markFailed_shape st1 m.id now
          rw [hmf, unseenCntL_map f hf]
          exact hlt2
        | some session =>
          dsimp only
          have hst2 : ∀ mid2 : String, (if (session.memory_session_id == none
              || session.memory_session_id == some "") = true then
              ensureMemorySessionIdRegistered st1 session.id mid2
              else st1).messages = st1.messages := by
            intro mid2
            by_cases hmemid : (session.memory_session_id == none
                || session.memory_session_id == some "") = true
            · rw [if_pos hmemid]; rfl
            · rw [if_neg hmemid]
          by_cases hok : env.agentOk m.id
          · rw [if_pos hok]
            apply ih
            have heq : ∀ mid2 : String, (confirmProcessed
                (if (session.memory_session_id == none
                  || session.memory_session_id == some "") = true then
                  ensureMemorySessionIdRegistered st1 session.id mid2
                  else st1) m.id).messages
                = st1.messages.filter (fun mm => !(mm.id == m.id)) := by
              intro mid2
              unfold confirmProcessed
              rw [hst2 mid2]
            rw [heq _]
            exact Nat.lt_of_le_of_lt
              (unseenCntL_sublist (List.filter_sublist _) sid (m.id :: seen)) hlt2
          · rw [if_neg hok]
            apply ih
            have hmk : ∀ mid2 : String,
                unseenCntL (markFailed (if (session.memory_session_id == none
                  || session.memory_session_id == some "") = true then
                  ensureMemorySessionIdRegistered st1 session.id mid2
                  else st1) m.id now).messages sid (m.id :: seen)
                = unseenCntL st1.messages sid (m.id :: seen) := by
              intro mid2
              obtain ⟨f, hmf, hf⟩ := markFailed_shape (if (session.memory_session_id == none
                || session.memory_session_id == some "") = true then
                ensureMemorySessionIdRegistered st1 session.id mid2
                else st1) m.id now
              rw [hmf, unseenCntL_map f hf, hst2 mid2]
            rw [hmk _]
            exact hlt2

/-- The Agent-invocation log of a drain pass never repeats an id. -/
theorem processSessionQueueAux_nodup (env : DrainEnv) (sid : Nat) (now : Int) :
    ∀ (fuel : Nat) (st : StoreState) (seen invoked : List Nat),
      invoked.Nodup → (∀ i ∈ invoked, i ∈ seen) →
      (processSessionQueueAux env sid now fuel st seen invoked).2.1.Nodup := by
  intro fuel
  induction fuel with
  | zero => intro st seen invoked hnd hsub; exact hnd
  | succ n ih =>
    intro st seen invoked hnd hsub
    simp only [processSessionQueueAux]
    cases hclaim : claimNextPending st sid now with
    | mk res st1 =>
    cases res with
    | none => exact hnd
    | some m =>
      dsimp only
      by_cases hseen : seen.contains m.id
      · rw [if_pos hseen]
        exact hnd
      · rw [if_neg hseen]
        have hmns : m.id ∉ seen := by
          intro hmem
          exact hseen (by simpa using hmem)
        have hmni : m.id ∉ invoked := fun hm => hmns (hsub m.id hm)
        have hnd2 : (invoked ++ [m.id]).Nodup := by
          rw [List.nodup_append]
          exact ⟨hnd, List.nodup_singleton _, by
            intro a ha hb
            rw [List.mem_singleton] at hb
            exact hmni (hb ▸ ha)⟩
        have hsub2 : ∀ i ∈ invoked ++ [m.id], i ∈ m.id :: seen := by
          intro i hi
          rcases List.mem_append.mp hi with h1 | h2
          · exact List.mem_cons_of_mem _ (hsub i h1)
          · rw [List.mem_singleton] at h2
            exact h2 ▸ List.mem_cons_self _ _
        have hsub1 : ∀ i ∈ invoked, i ∈ m.id :: seen :=
          fun i hi => List.mem_cons_of_mem _ (hsub i hi)
        cases hsess : getSessionById st1 m.session_db_id with
        | none => exact ih _ _ _ hnd hsub1
        | some session =>
          dsimp only
          by_cases hok : env.agentOk m.id
          · rw [if_pos hok]
            exact ih _ _ _ hnd2 hsub2
          · rw [if_neg hok]
            exact ih _ _ _ hnd2 hsub2

/-- Claim C10: one invocation of the session drain loop invokes the Agent at
    most once per queue item id (its invocation log never repeats an id) and
    always terminates: with fuel exceeding the number of the session's queue
    rows it reaches one of its break conditions — claimNext yields no item, or
    yields an id already claimed in this run (which is what happens when a
    failing item is reset to pending) — so a persistently failing item cannot
    make one drain pass loop forever. -/
theorem drain_terminates_at_most_once (env : DrainEnv) (s : StoreState) (sid : Nat)
    (now : Int) (fuel : Nat)
    (hfuel : (s.messages.filter (fun m => m.session_db_id == sid)).length < fuel) :
    (processSessionQueue env s sid now fuel).2.2 = true
      ∧ (processSessionQueue env s sid now fuel).2.1.Nodup := by
  constructor
  · apply processSessionQueueAux_completes
    have heq : unseenCntL s.messages sid []
        = (s.messages.filter (fun m => m.session_db_id == sid)).length := by
      unfold unseenCntL
      congr 1
      apply List.filter_congr
      intro x _
      simp
    rw [heq]
    exact hfuel
  · exact processSessionQueueAux_nodup env sid now fuel s [] [] List.nodup_nil
      (fun i hi => absurd hi (List.not_mem_nil i))

/-- Claim C10 witness: a drain pass over the two-item queue with an
    always-failing Agent completes and invokes the Agent at most once per id. -/
theorem drain_terminates_at_most_once_witness :
    (twoItemQueue.messages.filter (fun m => m.session_db_id == 1)).length < 10
      ∧ (processSessionQueue alwaysFailingAgent twoItemQueue 1 0 10).2.2 = true := by
  refine ⟨by decide, ?_⟩
  exact (drain_terminates_at_most_once alwaysFailingAgent twoItemQueue 1 0 10
    (by decide)).1

/-- Filtering a mapped list equals filtering the original list when the map
    preserves the predicate and fixes every selected element. -/
theorem filter_map_eq_of {α : Type} (f : α → α) (p : α → Bool) (l : List α)
    (hpres : ∀ x, p (f x) = p x) (hfix : ∀ x, p x = true → f x = x) :
    (l.map f).filter p = l.filter p := by
  induction l with
  | nil => rfl
  | cons a t ih =>
    rw [List.map_cons, List.filter_cons, List.filter_cons, hpres a]
    by_cases ha : p a = true
    · rw [if_pos ha, if_pos ha, hfix a ha, ih]
    · rw [if_neg ha, if_neg ha, ih]

/-- Lists with equal `p`-sublists also have equal `p ∧ q`-sublists. -/
theorem filter_and_congr {α : Type} (p q : α → Bool) (l1 l2 : List α)
    (h : l1.filter p = l2.filter p) :
    l1.filter (fun a => p a && q a) = l2.filter (fun a => p a && q a) := by
  have h1 : (l1.filter p).filter q = (l2.filter p).filter q := by rw [h]
  simp only [List.filter_filter] at h1
  calc l1.filter (fun a => p a && q a)
      = l1.filter (fun a => q a && p a) := by
        apply List.filter_congr
        intro x _
        rw [Bool.and_comm]
    _ = l2.filter (fun a => q a && p a) := h1
    _ = l2.filter (fun a => p a && q a) := by
        apply List.filter_congr
        intro x _
        rw [Bool.and_comm]

/-- The effective policy only reads the policy table. -/
theorem getPolicy_congr {st s : StoreState} (h : st.policies = s.policies) (P : String) :
    getProjectRetentionPolicy st P = getProjectRetentionPolicy s P := by
  unfold getProjectRetentionPolicy
  rw [h]

/-- Prompt-to-project attribution only reads the session table. -/
theorem promptBelongs_congr {st s : StoreState} (h : st.sessions = s.sessions)
    (P : String) (p : PromptRow) :
    promptBelongsToProject st P p = promptBelongsToProject s P p := by
  unfold promptBelongsToProject getSessionByContentSessionId
  rw [h]

/-- A cleanup step never writes the session, policy or activity tables. -/
theorem retentionStep_tables (options : RetentionCleanupOptions) (d : Int)
    (acc : RetentionReport × StoreState) (Q : String) :
    (retentionProjectStep options d acc Q).2.sessions = acc.2.sessions
      ∧ (retentionProjectStep options d acc Q).2.policies = acc.2.policies
      ∧ (retentionProjectStep options d acc Q).2.activity = acc.2.activity := by
  refine ⟨?_, ?_, ?_⟩ <;>
  · simp only [retentionProjectStep]
    split_ifs <;> rfl

/-- A cleanup step keeps every already-soft-deleted row in place. -/
theorem retentionStep_keeps (options : RetentionCleanupOptions) (d : Int)
    (acc : RetentionReport × StoreState) (Q : String) :
    (∀ x ∈ acc.2.observations, x.deleted_at_epoch ≠ none →
        x ∈ (retentionProjectStep options d acc Q).2.observations)
      ∧ (∀ x ∈ acc.2.summaries, x.deleted_at_epoch ≠ none →
        x ∈ (retentionProjectStep options d acc Q).2.summaries)
      ∧ (∀ x ∈ acc.2.user_prompts, x.deleted_at_epoch ≠ none →
        x ∈ (retentionProjectStep options d acc Q).2.user_prompts) := by
  refine ⟨?_, ?_, ?_⟩ <;>
  · intro x hx hdel
    have hc : (x.deleted_at_epoch == none) = false := by
      cases hd : x.deleted_at_epoch with
      | none => exact absurd hd hdel
      | some v => rfl
    simp only [retentionProjectStep]
    split_ifs <;> first
      | exact hx
      | exact List.mem_map.mpr ⟨x, hx, by simp [hc]⟩

/-- A cleanup step only appends to the report's detail list. -/
theorem retentionStep_details (options : RetentionCleanupOptions) (d : Int)
    (acc : RetentionReport × StoreState) (Q : String) :
    ∀ x ∈ acc.1.details, x ∈ (retentionProjectStep options d acc Q).1.details := by
  intro x hx
  simp only [retentionProjectStep]
  split_ifs <;> exact List.mem_append_left _ hx

/-- Under `RetInv`, the project's last-access epoch is the starting state's. -/
theorem getLastAccess_congr (s : StoreState) (P : String) (st : StoreState)
    (hinv : RetInv s P st) :
    getProjectLastAccessEpoch st P = getProjectLastAccessEpoch s P := by
  obtain ⟨hsess, hpol, hact, hobs, hsum, hpr⟩ := hinv
  have hobs2 : st.observations.filter (fun r => r.project == P && r.deleted_at_epoch == none)
      = s.observations.filter (fun r => r.project == P && r.deleted_at_epoch == none) :=
    filter_and_congr (fun r => r.project == P) (fun r => r.deleted_at_epoch == none)
      st.observations s.observations hobs
  have hsum2 : st.summaries.filter (fun r => r.project == P && r.deleted_at_epoch == none)
      = s.summaries.filter (fun r => r.project == P && r.deleted_at_epoch == none) :=
    filter_and_congr (fun r => r.project == P) (fun r => r.deleted_at_epoch == none)
      st.summaries s.summaries hsum
  have hpb : ∀ x, promptBelongsToProject st P x = promptBelongsToProject s P x :=
    fun x => promptBelongs_congr hsess P x
  have hpr2 : st.user_prompts.filter
        (fun p => p.deleted_at_epoch == none && promptBelongsToProject st P p)
      = s.user_prompts.filter
        (fun p => p.deleted_at_epoch == none && promptBelongsToProject s P p) := by
    have e1 : st.user_prompts.filter
          (fun p => p.deleted_at_epoch == none && promptBelongsToProject st P p)
        = st.user_prompts.filter
          (fun p => promptBelongsToProject s P p && (p.deleted_at_epoch == none)) := by
      apply List.filter_congr
      intro x _
      rw [hpb x, Bool.and_comm]
    have e2 : s.user_prompts.filter
          (fun p => promptBelongsToProject s P p && (p.deleted_at_epoch == none))
        = s.user_prompts.filter
          (fun p => p.deleted_at_epoch == none && promptBelongsToProject s P p) := by
      apply List.filter_congr
      intro x _
      rw [Bool.and_comm]
    have e3 := filter_and_congr (fun p => promptBelongsToProject s P p)
      (fun p => p.deleted_at_epoch == none) st.user_prompts s.user_prompts hpr
    rw [e1, e3, e2]
  unfold getProjectLastAccessEpoch
  rw [hobs2, hsum2, hpr2, hact]

/-- A cleanup step for a different project preserves `RetInv`. -/
theorem retentionStep_inv (s : StoreState) (P : String) (options : RetentionCleanupOptions)
    (d : Int) (acc : RetentionReport × StoreState) (Q : String) (hq : Q ≠ P)
    (hinv : RetInv s P acc.2) : RetInv s P (retentionProjectStep options d acc Q).2 := by
  obtain ⟨hsess, hpol, hact, hobs, hsum, hpr⟩ := hinv
  obtain ⟨hs2, hp2, ha2⟩ := retentionStep_tables options d acc Q
  have hpb : ∀ x, promptBelongsToProject acc.2 Q x = promptBelongsToProject s Q x :=
    fun x => promptBelongs_congr hsess Q x
  refine ⟨hs2.trans hsess, hp2.trans hpol, ha2.trans hact, ?_, ?_, ?_⟩
  · rw [← hobs]
    simp only [retentionProjectStep]
    split_ifs <;> try rfl
    apply filter_map_eq_of
    · intro x
      by_cases hc : (x.project == Q && x.deleted_at_epoch == none) = true
      · simp [hc]
      · simp [hc]
    · intro x hxP
      have hx1 : x.project = P := by simpa using hxP
      have hx2 : (x.project == Q) = false := by
        rw [hx1]
        exact beq_eq_false_iff_ne.mpr (fun h => hq h.symm)
      simp [hx2]
  · rw [← hsum]
    simp only [retentionProjectStep]
    split_ifs <;> try rfl
    apply filter_map_eq_of
    · intro x
      by_cases hc : (x.project == Q && x.deleted_at_epoch == none) = true
      · simp [hc]
      · simp [hc]
    · intro x hxP
      have hx1 : x.project = P := by simpa using hxP
      have hx2 : (x.project == Q) = false := by
        rw [hx1]
        exact beq_eq_false_iff_ne.mpr (fun h => hq h.symm)
      simp [hx2]
  · rw [← hpr]
    simp only [retentionProjectStep]
    split_ifs <;> try rfl
    apply filter_map_eq_of
    · intro x
      by_cases hc : (x.deleted_at_epoch == none && promptBelongsToProject acc.2 Q x) = true
      · rw [if_pos hc]
        unfold promptBelongsToProject
        rfl
      · rw [if_neg hc]
    · intro x hxP
      have hbq : promptBelongsToProject s Q x = false := by
        unfold promptBelongsToProject at hxP ⊢
        cases hfind : getSessionByContentSessionId s x.content_session_id with
        | none =>
          simp only [hfind] at hxP
          exact absurd hxP Bool.false_ne_true
        | some sess =>
          simp only [hfind] at hxP ⊢
          have hxp2 : sess.project = P := by simpa using hxP
          rw [hxp2]
          exact beq_eq_false_iff_ne.mpr (fun h => hq h.symm)
      have hcond : (x.deleted_at_epoch == none && promptBelongsToProject acc.2 Q x) = false := by
        rw [hpb x, hbq, Bool.and_false]
      simp [hcond]

/-- The whole cleanup fold preserves `RetInv` while it visits other projects. -/
theorem retentionFold_inv (s : StoreState) (P : String) (options : RetentionCleanupOptions)
    (d : Int) (ps : List String) (hps : ∀ Q ∈ ps, Q ≠ P) :
    ∀ acc : RetentionReport × StoreState, RetInv s P acc.2 →
      RetInv s P ((ps.foldl (retentionProjectStep options d) acc)).2 := by
  induction ps with
  | nil => exact fun acc h => h
  | cons Q t ih =>
    intro acc h
    rw [List.foldl_cons]
    exact ih (fun x hx => hps x (List.mem_cons_of_mem _ hx)) _
      (retentionStep_inv s P options d acc Q (hps Q (List.mem_cons_self _ _)) h)

/-- The whole cleanup fold keeps every already-soft-deleted row in place. -/
theorem retentionFold_keeps (options : RetentionCleanupOptions) (d : Int)
    (ps : List String) :
    ∀ acc : RetentionReport × StoreState,
      (∀ x ∈ acc.2.observations, x.deleted_at_epoch ≠ none →
        x ∈ ((ps.foldl (retentionProjectStep options d) acc)).2.observations)
      ∧ (∀ x ∈ acc.2.summaries, x.deleted_at_epoch ≠ none →
        x ∈ ((ps.foldl (retentionProjectStep options d) acc)).2.summaries)
      ∧ (∀ x ∈ acc.2.user_prompts, x.deleted_at_epoch ≠ none →
        x ∈ ((ps.foldl (retentionProjectStep options d) acc)).2.user_prompts) := by
  induction ps with
  | nil => exact fun acc => ⟨fun x hx _ => hx, fun x hx _ => hx, fun x hx _ => hx⟩
  | cons Q t ih =>
    intro acc
    refine ⟨fun x hx hdel => ?_, fun x hx hdel => ?_, fun x hx hdel => ?_⟩ <;>
      rw [List.foldl_cons]
    · exact (ih _).1 x ((retentionStep_keeps options d acc Q).1 x hx hdel) hdel
    · exact (ih _).2.1 x ((retentionStep_keeps options d acc Q).2.1 x hx hdel) hdel
    · exact (ih _).2.2 x ((retentionStep_keeps options d acc Q).2.2 x hx hdel) hdel

/-- The whole cleanup fold only appends to the report's detail list. -/
theorem retentionFold_details (options : RetentionCleanupOptions) (d : Int)
    (ps : List String) :
    ∀ acc : RetentionReport × StoreState, ∀ x ∈ acc.1.details,
      x ∈ ((ps.foldl (retentionProjectStep options d) acc)).1.details := by
  induction ps with
  | nil => exact fun acc x hx => hx
  | cons Q t ih =>
    intro acc x hx
    rw [List.foldl_cons]
    exact ih _ x (retentionStep_details options d acc Q x hx)

/-- The cleanup step of a pinned project leaves the store untouched and records
    the skip reason "pinned" in the report. -/
theorem retentionStep_pinned (s : StoreState) (P : String)
    (options : RetentionCleanupOptions) (d : Int) (acc : RetentionReport × StoreState)
    (hpol : acc.2.policies = s.policies)
    (hpin : (getProjectRetentionPolicy s P).pinned = true) :
    (retentionProjectStep options d acc P).2 = acc.2
      ∧ ∃ dd ∈ (retentionProjectStep options d acc P).1.details,
          dd.project = P ∧ dd.skippedReason = some "pinned" := by
  have hpolEq : getProjectRetentionPolicy acc.2 P = getProjectRetentionPolicy s P :=
    getPolicy_congr hpol P
  constructor
  · simp only [retentionProjectStep, hpolEq, hpin, if_true]
  · simp only [retentionProjectStep, hpolEq, hpin, if_true]
    exact ⟨_, List.mem_append_right _ (List.mem_singleton_self _), rfl, rfl⟩

/-- The cleanup step of an expired, enabled, unpinned project in execute mode
    stamps `deleted_at_epoch := nowEpoch` on every not-yet-deleted row of the
    project in all three tables. -/
theorem retentionStep_exec (s : StoreState) (P : String)
    (options : RetentionCleanupOptions) (acc : RetentionReport × StoreState)
    (hinv : RetInv s P acc.2)
    (hpin : (getProjectRetentionPolicy s P).pinned = false)
    (hen : (getProjectRetentionPolicy s P).enabled = true)
    (hexp : retentionExpired s options P = true)
    (hdry : options.dryRun = false) :
    (retentionProjectStep options (max 1 options.defaultTtlDays) acc P).2
      = { acc.2 with
          observations := acc.2.observations.map (fun r =>
            if r.project == P && r.deleted_at_epoch == none then
              { r with deleted_at_epoch := some options.nowEpoch } else r),
          summaries := acc.2.summaries.map (fun r =>
            if r.project == P && r.deleted_at_epoch == none then
              { r with deleted_at_epoch := some options.nowEpoch } else r),
          user_prompts := acc.2.user_prompts.map (fun p =>
            if p.deleted_at_epoch == none && promptBelongsToProject acc.2 P p then
              { p with deleted_at_epoch := some options.nowEpoch } else p) } := by
  have hpolEq : getProjectRetentionPolicy acc.2 P = getProjectRetentionPolicy s P :=
    getPolicy_congr hinv.2.1 P
  have hlaEq : getProjectLastAccessEpoch acc.2 P = getProjectLastAccessEpoch s P :=
    getLastAccess_congr s P acc.2 hinv
  simp only [retentionExpired] at hexp
  simp only [retentionProjectStep, hpolEq, hlaEq, hpin, hen, hexp, hdry,
    Bool.not_true, Bool.false_eq_true, if_false]

/-- Running the cleanup fold over a project list that contains the expired,
    enabled, unpinned project P exactly once stamps every live row of P. -/
theorem retentionFold_execA (s : StoreState) (P : String)
    (options : RetentionCleanupOptions) (ps1 ps2 : List String) (h1 : P ∉ ps1)
    (acc0 : RetentionReport × StoreState) (hinv0 : RetInv s P acc0.2)
    (hpin : (getProjectRetentionPolicy s P).pinned = false)
    (hen : (getProjectRetentionPolicy s P).enabled = true)
    (hexp : retentionExpired s options P = true)
    (hdry : options.dryRun = false) :
    (∀ r ∈ s.observations, r.project = P → r.deleted_at_epoch = none →
        { r with deleted_at_epoch := some options.nowEpoch }
          ∈ (((ps1 ++ P :: ps2).foldl
              (retentionProjectStep options (max 1 options.defaultTtlDays))
              acc0)).2.observations)
      ∧ (∀ r ∈ s.summaries, r.project = P → r.deleted_at_epoch = none →
        { r with deleted_at_epoch := some options.nowEpoch }
          ∈ (((ps1 ++ P :: ps2).foldl
              (retentionProjectStep options (max 1 options.defaultTtlDays))
              acc0)).2.summaries)
      ∧ (∀ p ∈ s.user_prompts, promptBelongsToProject s P p = true →
          p.deleted_at_epoch = none →
        { p with deleted_at_epoch := some options.nowEpoch }
          ∈ (((ps1 ++ P :: ps2).foldl
              (retentionProjectStep options (max 1 options.defaultTtlDays))
              acc0)).2.user_prompts) := by
  rw [List.foldl_append, List.foldl_cons]
  have hinv1 : RetInv s P ((ps1.foldl
      (retentionProjectStep options (max 1 options.defaultTtlDays)) acc0)).2 :=
    retentionFold_inv s P options (max 1 options.defaultTtlDays) ps1
      (fun Q hQ hEq => h1 (hEq ▸ hQ)) acc0 hinv0
  have hstep := retentionStep_exec s P options
    (ps1.foldl (retentionProjectStep options (max 1 options.defaultTtlDays)) acc0)
    hinv1 hpin hen hexp hdry
  refine ⟨fun r hr hrP hrD => ?_, fun r hr hrP hrD => ?_, fun p hp hpB hpD => ?_⟩
  · have hrPb : (r.project == P) = true := by simp [hrP]
    have hmem1 : r ∈ ((ps1.foldl
        (retentionProjectStep options (max 1 options.defaultTtlDays)) acc0)).2.observations := by
      have h0 : r ∈ s.observations.filter (fun r => r.project == P) :=
        List.mem_filter.mpr ⟨hr, hrPb⟩
      rw [← hinv1.2.2.2.1] at h0
      exact (List.mem_filter.mp h0).1
    have hmem2 : { r with deleted_at_epoch := some options.nowEpoch }
        ∈ (retentionProjectStep options (max 1 options.defaultTtlDays)
            (ps1.foldl (retentionProjectStep options (max 1 options.defaultTtlDays)) acc0)
            P).2.observations := by
      rw [hstep]
      exact List.mem_map.mpr ⟨r, hmem1, by simp [hrPb, hrD]⟩
    exact (retentionFold_keeps options (max 1 options.defaultTtlDays) ps2 _).1
      _ hmem2 (by simp)
  · have hrPb : (r.project == P) = true := by simp [hrP]
    have hmem1 : r ∈ ((ps1.foldl
        (retentionProjectStep options (max 1 options.defaultTtlDays)) acc0)).2.summaries := by
      have h0 : r ∈ s.summaries.filter (fun r => r.project == P) :=
        List.mem_filter.mpr ⟨hr, hrPb⟩
      rw [← hinv1.2.2.2.2.1] at h0
      exact (List.mem_filter.mp h0).1
    have hmem2 : { r with deleted_at_epoch := some options.nowEpoch }
        ∈ (retentionProjectStep options (max 1 options.defaultTtlDays)
            (ps1.foldl (retentionProjectStep options (max 1 options.defaultTtlDays)) acc0)
            P).2.summaries := by
      rw [hstep]
      exact List.mem_map.mpr ⟨r, hmem1, by simp [hrPb, hrD]⟩
    exact (retentionFold_keeps options (max 1 options.defaultTtlDays) ps2 _).2.1
      _ hmem2 (by simp)
  · have hpBacc : promptBelongsToProject ((ps1.foldl
        (retentionProjectStep options (max 1 options.defaultTtlDays)) acc0)).2 P p = true := by
      rw [promptBelongs_congr hinv1.1 P p]
      exact hpB
    have hmem1 : p ∈ ((ps1.foldl
        (retentionProjectStep options (max 1 options.defaultTtlDays)) acc0)).2.user_prompts := by
      have h0 : p ∈ s.user_prompts.filter (fun pr => promptBelongsToProject s P pr) :=
        List.mem_filter.mpr ⟨hp, hpB⟩
      rw [← hinv1.2.2.2.2.2] at h0
      exact (List.mem_filter.mp h0).1
    have hmem2 : { p with deleted_at_epoch := some options.nowEpoch }
        ∈ (retentionProjectStep options (max 1 options.defaultTtlDays)
            (ps1.foldl (retentionProjectStep options (max 1 options.defaultTtlDays)) acc0)
            P).2.user_prompts := by
      rw [hstep]
      exact List.mem_map.mpr ⟨p, hmem1, by simp [hpD, hpBacc]⟩
    exact (retentionFold_keeps options (max 1 options.defaultTtlDays) ps2 _).2.2
      _ hmem2 (by simp)

/-- Running the cleanup fold over a project list that contains the pinned
    project P exactly once leaves P's rows untouched and records the skip. -/
theorem retentionFold_pinnedB (s : StoreState) (P : String)
    (options : RetentionCleanupOptions) (ps1 ps2 : List String)
    (h1 : P ∉ ps1) (h2 : P ∉ ps2)
    (acc0 : RetentionReport × StoreState) (hinv0 : RetInv s P acc0.2)
    (hpin : (getProjectRetentionPolicy s P).pinned = true) :
    RetInv s P (((ps1 ++ P :: ps2).foldl
        (retentionProjectStep options (max 1 options.defaultTtlDays)) acc0)).2
      ∧ ∃ dd ∈ (((ps1 ++ P :: ps2).foldl
            (retentionProjectStep options (max 1 options.defaultTtlDays)) acc0)).1.details,
          dd.project = P ∧ dd.skippedReason = some "pinned" := by
  rw [List.foldl_append, List.foldl_cons]
  have hinv1 : RetInv s P ((ps1.foldl
      (retentionProjectStep options (max 1 options.defaultTtlDays)) acc0)).2 :=
    retentionFold_inv s P options (max 1 options.defaultTtlDays) ps1
      (fun Q hQ hEq => h1 (hEq ▸ hQ)) acc0 hinv0
  have hstep := retentionStep_pinned s P options (max 1 options.defaultTtlDays)
    (ps1.foldl (retentionProjectStep options (max 1 options.defaultTtlDays)) acc0)
    hinv1.2.1 hpin
  have hinv2 : RetInv s P (retentionProjectStep options (max 1 options.defaultTtlDays)
      (ps1.foldl (retentionProjectStep options (max 1 options.defaultTtlDays)) acc0)
      P).2 := by
    rw [hstep.1]
    exact hinv1
  constructor
  · exact retentionFold_inv s P options (max 1 options.defaultTtlDays) ps2
      (fun Q hQ hEq => h2 (hEq ▸ hQ)) _ hinv2
  · obtain ⟨dd, hdd, hddP, hddR⟩ := hstep.2
    exact ⟨dd, retentionFold_details options (max 1 options.defaultTtlDays) ps2 _ dd hdd,
      hddP, hddR⟩

/-- Claim C5: in an execute (non-dry-run) retention cleanup, a project that is
    not pinned, whose policy is enabled, and whose staleness passes the ttl
    test gets `deleted_at_epoch := nowEpoch` stamped on every one of its
    observations, summaries and prompts that were not already deleted (the
    stamped rows survive the hard-delete sweep of the same call); a project
    whose policy is pinned under the same staleness keeps all its live rows
    untouched and the report records the skip reason "pinned". -/
theorem retention_expiry_and_pinned (s : StoreState) (options : RetentionCleanupOptions)
    (P : String) (hdry : options.dryRun = false) (hP : P ∈ listRetentionProjects s) :
    ((getProjectRetentionPolicy s P).pinned = false →
      (getProjectRetentionPolicy s P).enabled = true →
      retentionExpired s options P = true →
      (∀ r ∈ s.observations, r.project = P → r.deleted_at_epoch = none →
          { r with deleted_at_epoch := some options.nowEpoch }
            ∈ (runRetentionCleanup s options).2.observations)
        ∧ (∀ r ∈ s.summaries, r.project = P → r.deleted_at_epoch = none →
          { r with deleted_at_epoch := some options.nowEpoch }
            ∈ (runRetentionCleanup s options).2.summaries)
        ∧ (∀ p ∈ s.user_prompts, promptBelongsToProject s P p = true →
            p.deleted_at_epoch = none →
          { p with deleted_at_epoch := some options.nowEpoch }
            ∈ (runRetentionCleanup s options).2.user_prompts))
    ∧ ((getProjectRetentionPolicy s P).pinned = true →
      (∀ r ∈ s.observations, r.project = P → r.deleted_at_epoch = none →
          r ∈ (runRetentionCleanup s options).2.observations)
        ∧ (∀ r ∈ s.summaries, r.project = P → r.deleted_at_epoch = none →
          r ∈ (runRetentionCleanup s options).2.summaries)
        ∧ (∀ p ∈ s.user_prompts, promptBelongsToProject s P p = true →
            p.deleted_at_epoch = none →
          p ∈ (runRetentionCleanup s options).2.user_prompts)
        ∧ ∃ dd ∈ (runRetentionCleanup s options).1.details,
            dd.project = P ∧ dd.skippedReason = some "pinned") := by
  obtain ⟨ps1, ps2, hsplit⟩ := List.append_of_mem hP
  have hnd : (listRetentionProjects s).Nodup := by
    unfold listRetentionProjects
    exact List.nodup_dedup _
  rw [hsplit, List.nodup_append] at hnd
  have hP1 : P ∉ ps1 := fun hmem => hnd.2.2 hmem (List.mem_cons_self _ _)
  have hP2 : P ∉ ps2 := (List.nodup_cons.mp hnd.2.1).1
  have hnotel : (!(hardEligible (some options.nowEpoch)
      (options.nowEpoch - (max 1 options.softDeleteDays) * DAY_MS))) = true := by
    have ha : (1:Int) ≤ max 1 options.softDeleteDays := le_max_left _ _
    have hb : (0:Int) < DAY_MS := by decide
    have hc : 0 < (max 1 options.softDeleteDays) * DAY_MS :=
      mul_pos (lt_of_lt_of_le one_pos ha) hb
    simp only [hardEligible, Bool.not_eq_true', decide_eq_false_iff_not, not_le]
    generalize (max 1 options.softDeleteDays) * DAY_MS = m at hc ⊢
    omega
  cases hp1 : (listRetentionProjects s).foldl
      (retentionProjectStep options (max 1 options.defaultTtlDays))
      (⟨false, options.nowEpoch, max 1 options.defaultTtlDays,
        max 1 options.softDeleteDays, (listRetentionProjects s).length,
        0, 0, 0, 0, 0, 0, 0, 0, 0, []⟩, s) with
  | mk rep1 s1 =>
  have hobsFinal : (runRetentionCleanup s options).2.observations
      = s1.observations.filter (fun r =>
          !(hardEligible r.deleted_at_epoch
            (options.nowEpoch - (max 1 options.softDeleteDays) * DAY_MS))) := by
    simp only [runRetentionCleanup, hp1, hdry, Bool.false_eq_true, if_false]
  have hsumFinal : (runRetentionCleanup s options).2.summaries
      = s1.summaries.filter (fun r =>
          !(hardEligible r.deleted_at_epoch
            (options.nowEpoch - (max 1 options.softDeleteDays) * DAY_MS))) := by
    simp only [runRetentionCleanup, hp1, hdry, Bool.false_eq_true, if_false]
  have hprFinal : (runRetentionCleanup s options).2.user_prompts
      = s1.user_prompts.filter (fun p =>
          !(hardEligible p.deleted_at_epoch
            (options.nowEpoch - (max 1 options.softDeleteDays) * DAY_MS))) := by
    simp only [runRetentionCleanup, hp1, hdry, Bool.false_eq_true, if_false]
  have hdetFinal : (runRetentionCleanup s options).1.details = rep1.details := by
    simp only [runRetentionCleanup, hp1, hdry, Bool.false_eq_true, if_false]
  rw [hsplit] at hp1
  constructor
  · intro hpin hen hexp
    have hA := retentionFold_execA s P options ps1 ps2 hP1
      (⟨false, options.nowEpoch, max 1 options.defaultTtlDays,
        max 1 options.softDeleteDays, (ps1 ++ P :: ps2).length,
        0, 0, 0, 0, 0, 0, 0, 0, 0, []⟩, s)
      ⟨rfl, rfl, rfl, rfl, rfl, rfl⟩ hpin hen hexp hdry
    rw [hp1] at hA
    refine ⟨fun r hr hrP hrD => ?_, fun r hr hrP hrD => ?_, fun p hp hpB hpD => ?_⟩
    · rw [hobsFinal]
      exact List.mem_filter.mpr ⟨hA.1 r hr hrP hrD, hnotel⟩
    · rw [hsumFinal]
      exact List.mem_filter.mpr ⟨hA.2.1 r hr hrP hrD, hnotel⟩
    · rw [hprFinal]
      exact List.mem_filter.mpr ⟨hA.2.2 p hp hpB hpD, hnotel⟩
  · intro hpin
    have hB := retentionFold_pinnedB s P options ps1 ps2 hP1 hP2
      (⟨false, options.nowEpoch, max 1 options.defaultTtlDays,
        max 1 options.softDeleteDays, (ps1 ++ P :: ps2).length,
        0, 0, 0, 0, 0, 0, 0, 0, 0, []⟩, s)
      ⟨rfl, rfl, rfl, rfl, rfl, rfl⟩ hpin
    rw [hp1] at hB
    obtain ⟨hinvF, dd, hdd, hddP, hddR⟩ := hB
    refine ⟨fun r hr hrP hrD => ?_, fun r hr hrP hrD => ?_, fun p hp hpB hpD => ?_, ?_⟩
    · have hrPb : (r.project == P) = true := by simp [hrP]
      have hmem1 : r ∈ s1.observations := by
        have h0 : r ∈ s.observations.filter (fun r => r.project == P) :=
          List.mem_filter.mpr ⟨hr, hrPb⟩
        rw [← hinvF.2.2.2.1] at h0
        exact (List.mem_filter.mp h0).1
      rw [hobsFinal]
      exact List.mem_filter.mpr ⟨hmem1, by simp [hardEligible, hrD]⟩
    · have hrPb : (r.project == P) = true := by simp [hrP]
      have hmem1 : r ∈ s1.summaries := by
        have h0 : r ∈ s.summaries.filter (fun r => r.project == P) :=
          List.mem_filter.mpr ⟨hr, hrPb⟩
        rw [← hinvF.2.2.2.2.1] at h0
        exact (List.mem_filter.mp h0).1
      rw [hsumFinal]
      exact List.mem_filter.mpr ⟨hmem1, by simp [hardEligible, hrD]⟩
    · have hmem1 : p ∈ s1.user_prompts := by
        have h0 : p ∈ s.user_prompts.filter (fun pr => promptBelongsToProject s P pr) :=
          List.mem_filter.mpr ⟨hp, hpB⟩
        rw [← hinvF.2.2.2.2.2] at h0
        exact (List.mem_filter.mp h0).1
      rw [hprFinal]
      exact List.mem_filter.mpr ⟨hmem1, by simp [hardEligible, hpD]⟩
    · rw [hdetFinal]
      exact ⟨dd, hdd, hddP, hddR⟩

/-- Claim C5 witness: on the concrete stale project "proj" (default policy, not
    pinned, last access at epoch 0, cleanup at epoch 40 days) the execute call
    stamps the observation row with the cleanup timestamp. -/
theorem retention_expiry_and_pinned_witness :
    retentionOpts.dryRun = false
      ∧ "proj" ∈ listRetentionProjects retentionStoreExpired
      ∧ (getProjectRetentionPolicy retentionStoreExpired "proj").pinned = false
      ∧ retentionExpired retentionStoreExpired retentionOpts "proj" = true
      ∧ { retentionObsRow with deleted_at_epoch := some retentionOpts.nowEpoch }
          ∈ (runRetentionCleanup retentionStoreExpired retentionOpts).2.observations := by
  refine ⟨rfl, by decide, rfl, by decide, ?_⟩
  exact ((retention_expiry_and_pinned retentionStoreExpired retentionOpts "proj"
      rfl (by decide)).1 rfl rfl (by decide)).1
    retentionObsRow (by decide) rfl rfl

end CodexMem
